import Mathlib

set_option autoImplicit false

/-!
Verification development for the shokobot retrieval-and-fallback core.

The Python sources under `src/` are embedded shallowly:

* `src/services/rag_service.py` — `search_with_mcp_fallback`, the fallback
  orchestrator (threshold acceptance, external backfill, merge/dedup);
* `src/services/showdoc_persistence.py` — the file-backed cache store;
* `src/services/mcp_anime_json_parser.py` — the JSON-shape record normalizer;
* `src/utils/text_utils.py` — `split_pipe` (tabular-shape list dedup);
* `src/utils/batch_utils.py` / `src/services/ingest_service.py` — batching;
* `src/services/vectorstore_service.py` — `upsert_documents`;
* `src/models/show_doc.py` — the `ShowDoc` record and its validators.

Modelling conventions: Python floats are embedded as exact rationals (`Rat`);
machine-level float rounding is outside the model, and every concrete input
used in a counterexample is exactly representable in binary floating point so
the code and the model agree there.  Python exceptions are `Except PyErr`.
Python dicts appear as association lists looked up by first key occurrence
(a real dict has unique keys; where that matters a `Nodup` hypothesis makes
it explicit).  `str.strip()` and `str.lower()` are modelled by the
character-level `pyStrip` and `pyLower` below (ASCII-faithful).  Naive
`datetime` objects are modelled
without microseconds; `isoformat`/`fromisoformat` act on the fixed-width
`YYYY-MM-DDTHH:MM:SS` shape those objects serialize to.
-/

namespace Shoko

/-- Python-level value found in a LangChain document's metadata dict.  The
code probes these dynamically (truthiness, set membership, `str()`), so the
embedding keeps the value space explicit. -/
inductive MVal where
  | str (v : String)
  | int (v : Int)
  | num (v : Rat)
  | bool (v : Bool)
  | none
  | list (v : List String)
  deriving DecidableEq, Repr

/-- Python truthiness of a metadata value. -/
def MVal.truthy : MVal → Bool
  | .str v => v ≠ ""
  | .int v => v ≠ 0
  | .num v => v ≠ 0
  | .bool v => v
  | .none => false
  | .list v => !v.isEmpty

/-- Python `str()` applied to a metadata value (used for `ids.append(str(anime_id))`
in `upsert_documents`). -/
def MVal.pyStr : MVal → String
  | .str v => v
  | .int v => toString v
  | .num v => toString v
  | .bool v => if v then "True" else "False"
  | .none => "None"
  | .list _ => "[...]"

/-- Values `langchain`'s `filter_complex_metadata` keeps: `str`, `bool`,
`int`, `float`.  `None`, lists and nested objects are stripped. -/
def MVal.scalar : MVal → Bool
  | .str _ => true
  | .int _ => true
  | .num _ => true
  | .bool _ => true
  | .none => false
  | .list _ => false

/-- Python `str.strip()`: drop leading and trailing whitespace.  Implemented
character-wise so that it evaluates inside the kernel. -/
def pyStrip (s : String) : String :=
  String.mk (((s.data.dropWhile Char.isWhitespace).reverse.dropWhile Char.isWhitespace).reverse)

/-- Python `s.lower()` (character-wise). -/
def pyLower (s : String) : String :=
  String.mk (s.data.map Char.toLower)

/-- Replace the value stored under key `k`, or append the binding when the
key is absent — Python's `d[k] = v` on a dict modelled as an assoc list. -/
def setEntry {α : Type} (k : String) (v : α) : List (String × α) → List (String × α)
  | [] => [(k, v)]
  | (q, w) :: rest => if q = k then (k, v) :: rest else (q, w) :: setEntry k v rest

/-- A LangChain `Document`: text content plus a metadata dict. -/
structure Doc where
  page_content : String
  metadata : List (String × MVal)
  deriving DecidableEq, Repr

/-- Python `doc.metadata.get(k)` (`None` when absent). -/
def Doc.getMeta (d : Doc) (k : String) : Option MVal :=
  d.metadata.lookup k

/-- Python `doc.metadata[k] = v`. -/
def Doc.setMeta (d : Doc) (k : String) (v : MVal) : Doc :=
  { d with metadata := setEntry k v d.metadata }

/-- The `anime_id` metadata value of a document (`doc.metadata.get("anime_id")`). -/
def Doc.animeId (d : Doc) : Option MVal :=
  d.getMeta "anime_id"

/-- Whether a document carries a truthy `anime_id` metadata value. -/
def Doc.hasAnimeId (d : Doc) : Bool :=
  match d.animeId with
  | some v => v.truthy
  | Option.none => false

/-- Tag a document with its similarity score:
`doc.metadata["_distance_score"] = s` in `rag_service.py`. -/
def tagScore (d : Doc) (s : Rat) : Doc :=
  d.setMeta "_distance_score" (.num s)

/-- Python `int()` applied to a nonintegral number: truncation toward zero. -/
def pyInt (q : Rat) : Int :=
  if 0 ≤ q then ⌊q⌋ else -⌊-q⌋

/-- Python 3 `round()` on a number: round half to even (banker's rounding). -/
def pyRound (q : Rat) : Int :=
  if q - ⌊q⌋ < 1/2 then ⌊q⌋
  else if (1 : Rat)/2 < q - ⌊q⌋ then ⌊q⌋ + 1
  else if ⌊q⌋ % 2 = 0 then ⌊q⌋ else ⌊q⌋ + 1

/-- Naive `datetime.datetime` without microseconds, as the ingested records
carry (`ShowDoc.air_date` / `end_date`). -/
structure PyDateTime where
  year : Nat
  month : Nat
  day : Nat
  hour : Nat
  minute : Nat
  second : Nat
  deriving DecidableEq, Repr

/-- Range invariants Python `datetime` enforces on construction. -/
def PyDateTime.Valid (t : PyDateTime) : Prop :=
  1 ≤ t.year ∧ t.year ≤ 9999 ∧ 1 ≤ t.month ∧ t.month ≤ 12 ∧ 1 ≤ t.day ∧ t.day ≤ 31 ∧
    t.hour ≤ 23 ∧ t.minute ≤ 59 ∧ t.second ≤ 59

instance (t : PyDateTime) : Decidable t.Valid := by
  unfold PyDateTime.Valid
  infer_instance

/-- Decimal digit character for `n % 10`. -/
def digitChar (n : Nat) : Char := Char.ofNat (48 + n % 10)

/-- Numeric value of a decimal digit character. -/
def digitVal (c : Char) : Nat := c.toNat - 48

/-- Four-digit zero-padded decimal rendering (the year of `isoformat`). -/
def pad4 (n : Nat) : List Char :=
  [digitChar (n / 1000), digitChar (n / 100), digitChar (n / 10), digitChar n]

/-- Two-digit zero-padded decimal rendering. -/
def pad2 (n : Nat) : List Char :=
  [digitChar (n / 10), digitChar n]

/-- `datetime.isoformat()` for a naive second-precision datetime:
`YYYY-MM-DDTHH:MM:SS`. -/
def PyDateTime.isoChars (t : PyDateTime) : List Char :=
  pad4 t.year ++ '-' :: (pad2 t.month ++ '-' :: (pad2 t.day ++ 'T' ::
    (pad2 t.hour ++ ':' :: (pad2 t.minute ++ ':' :: pad2 t.second))))

/-- `datetime.fromisoformat` on the fixed-width `YYYY-MM-DDTHH:MM:SS` shape:
`none` models a raised `ValueError`. -/
def fromIsoChars : List Char → Option PyDateTime
  | [y1, y2, y3, y4, sA, m1, m2, sB, d1, d2, sC, h1, h2, sD, n1, n2, sE, c1, c2] =>
    if sA = '-' ∧ sB = '-' ∧ sC = 'T' ∧ sD = ':' ∧ sE = ':' ∧
        ([y1, y2, y3, y4, m1, m2, d1, d2, h1, h2, n1, n2, c1, c2].all Char.isDigit) then
      let t : PyDateTime :=
        { year := ((digitVal y1 * 10 + digitVal y2) * 10 + digitVal y3) * 10 + digitVal y4
          month := digitVal m1 * 10 + digitVal m2
          day := digitVal d1 * 10 + digitVal d2
          hour := digitVal h1 * 10 + digitVal h2
          minute := digitVal n1 * 10 + digitVal n2
          second := digitVal c1 * 10 + digitVal c2 }
      if t.Valid then some t else Option.none
    else Option.none
  | _ => Option.none

/-- Python exception, distinguished by class as far as the embedded code ever
distinguishes them. -/
inductive PyErr where
  | valueError (msg : String)
  | runtimeError (msg : String)
  | jsonDecodeError (msg : String)
  | osError (msg : String)
  deriving DecidableEq, Repr

/-- The canonical normalized record (`models/show_doc.py`, class `ShowDoc`). -/
structure ShowDoc where
  anime_id : String
  anidb_anime_id : Int
  title_main : String
  title_alts : List String
  description : String
  tags : List String
  episode_count_normal : Int
  episode_count_special : Int
  air_date : Option PyDateTime
  end_date : Option PyDateTime
  begin_year : Option Int
  end_year : Option Int
  rating : Int
  vote_count : Int
  avg_review_rating : Int
  review_count : Int
  ann_id : Option Int
  crunchyroll_id : Option String
  wikipedia_id : Option String
  relations : String
  similar : String
  deriving DecidableEq, Repr

/-- `ShowDoc.validate_string_lists`: strip every item, drop items that are
empty or whitespace-only. -/
def cleanStringList (l : List String) : List String :=
  (l.filter fun item => item ≠ "" && pyStrip item ≠ "").map pyStrip

/-- `ShowDoc.validate_optional_strings`: empty or whitespace-only optional
strings normalize to `None`, others are stripped. -/
def normalizeOptString : Option String → Option String
  | Option.none => Option.none
  | some s => if pyStrip s = "" then Option.none else some (pyStrip s)

/-- Helper for the `ge=1900` bound on the optional year fields. -/
def optBelow1900 : Option Int → Bool
  | some b => b < 1900
  | Option.none => false

/-- Helper for `ShowDoc.validate_end_year`. -/
def endBeforeBegin : Option Int → Option Int → Bool
  | some b, some e => e < b
  | _, _ => false

/-- Helper for the `gt=0` bound on `ann_id`. -/
def annNonPos : Option Int → Bool
  | some a => a ≤ 0
  | Option.none => false

/-- First pydantic validation failure for the given `ShowDoc` field values —
field constraints (`gt`, `ge`, `le`, `min_length`) plus the four
`field_validator`s.  Pydantic reports all failures at once where this model
reports the first; the claims only depend on success versus failure. -/
def showDocError (anime_id : String) (anidb_anime_id : Int) (title_main : String)
    (episode_count_normal episode_count_special : Int) (begin_year end_year : Option Int)
    (rating vote_count avg_review_rating review_count : Int)
    (ann_id : Option Int) : Option PyErr :=
  if pyStrip anime_id = "" then some (.valueError "anime_id cannot be empty or whitespace")
  else if anidb_anime_id ≤ 0 then some (.valueError "anidb_anime_id must be greater than 0")
  else if pyStrip title_main = "" then some (.valueError "title_main cannot be empty or whitespace")
  else if episode_count_normal < 0 then
    some (.valueError "episode_count_normal must be nonnegative")
  else if episode_count_special < 0 then
    some (.valueError "episode_count_special must be nonnegative")
  else if optBelow1900 begin_year then some (.valueError "begin_year must be at least 1900")
  else if optBelow1900 end_year then some (.valueError "end_year must be at least 1900")
  else if endBeforeBegin begin_year end_year then
    some (.valueError "end_year cannot be before begin_year")
  else if rating < 0 ∨ 1000 < rating then some (.valueError "rating must lie in 0..1000")
  else if vote_count < 0 then some (.valueError "vote_count must be nonnegative")
  else if avg_review_rating < 0 then some (.valueError "avg_review_rating must be nonnegative")
  else if review_count < 0 then some (.valueError "review_count must be nonnegative")
  else if annNonPos ann_id then some (.valueError "ann_id must be greater than 0")
  else Option.none

/-- Pydantic construction of a `ShowDoc`: validate every field, then build the
record out of the cleaned field values. -/
def mkShowDoc (anime_id : String) (anidb_anime_id : Int) (title_main : String)
    (title_alts : List String) (description : String) (tags : List String)
    (episode_count_normal episode_count_special : Int)
    (air_date end_date : Option PyDateTime) (begin_year end_year : Option Int)
    (rating vote_count avg_review_rating review_count : Int)
    (ann_id : Option Int) (crunchyroll_id wikipedia_id : Option String)
    (relations similar : String) : Except PyErr ShowDoc :=
  match showDocError anime_id anidb_anime_id title_main episode_count_normal
      episode_count_special begin_year end_year rating vote_count avg_review_rating
      review_count ann_id with
  | some e => .error e
  | Option.none => .ok
    { anime_id := pyStrip anime_id
      anidb_anime_id
      title_main := pyStrip title_main
      title_alts := cleanStringList title_alts
      description
      tags := cleanStringList tags
      episode_count_normal
      episode_count_special
      air_date
      end_date
      begin_year
      end_year
      rating
      vote_count
      avg_review_rating
      review_count
      ann_id
      crunchyroll_id := normalizeOptString crunchyroll_id
      wikipedia_id := normalizeOptString wikipedia_id
      relations
      similar }

instance {ε α : Type} [DecidableEq ε] [DecidableEq α] : DecidableEq (Except ε α) := fun x y =>
  match x, y with
  | .ok a, .ok b =>
    if h : a = b then isTrue (by rw [h]) else isFalse (fun hc => h (Except.ok.injEq a b ▸ hc))
  | .error a, .error b =>
    if h : a = b then isTrue (by rw [h]) else isFalse (fun hc => h (Except.error.injEq a b ▸ hc))
  | .ok _, .error _ => isFalse (fun hc => Except.noConfusion hc)
  | .error _, .ok _ => isFalse (fun hc => Except.noConfusion hc)

/-- A record is valid when revalidating its own fields reproduces it exactly —
the state every `ShowDoc` that pydantic ever handed out is in. -/
def ShowDoc.Valid (r : ShowDoc) : Prop :=
  mkShowDoc r.anime_id r.anidb_anime_id r.title_main r.title_alts r.description r.tags
    r.episode_count_normal r.episode_count_special r.air_date r.end_date r.begin_year
    r.end_year r.rating r.vote_count r.avg_review_rating r.review_count r.ann_id
    r.crunchyroll_id r.wikipedia_id r.relations r.similar = .ok r

instance (r : ShowDoc) : Decidable r.Valid := by
  unfold ShowDoc.Valid
  infer_instance

/-- Box an optional integer as the Python value stored in document metadata. -/
def optIntVal : Option Int → MVal
  | Option.none => .none
  | some n => .int n

/-- Box an optional string as the Python value stored in document metadata. -/
def optStrVal : Option String → MVal
  | Option.none => .none
  | some s => .str s

/-- Metadata value for a serialized optional date
(`self.air_date.isoformat() if self.air_date else None`). -/
def isoDateVal : Option PyDateTime → MVal
  | Option.none => .none
  | some t => .str (String.mk t.isoChars)

/-- The embedding text `ShowDoc.to_langchain_doc` assembles. -/
def ShowDoc.pageText (r : ShowDoc) : String :=
  let parts := [r.title_main]
  let parts := if r.title_alts.isEmpty then parts
    else parts ++ ["Also known as: " ++ String.intercalate ", " (r.title_alts.take 5)]
  let parts := if r.description = "" then parts else parts ++ [r.description]
  let parts := if r.tags.isEmpty then parts
    else parts ++ ["Tags: " ++ String.intercalate ", " r.tags]
  let parts := if r.episode_count_normal = 0 then parts
    else parts ++ ["Episodes: " ++ toString r.episode_count_normal]
  let parts := match r.begin_year with
    | Option.none => parts
    | some y =>
      if y = 0 then parts
      else
        let ys := match r.end_year with
          | some e => if e ≠ 0 ∧ e ≠ y then toString y ++ "-" ++ toString e else toString y
          | Option.none => toString y
        parts ++ ["Year: " ++ ys]
  String.intercalate "\n\n" parts

/-- `ShowDoc.to_langchain_doc`: the LangChain document with the full metadata
dict, in the source's insertion order. -/
def ShowDoc.to_langchain_doc (r : ShowDoc) : Doc :=
  { page_content := r.pageText
    metadata :=
      [("anime_id", .str r.anime_id),
       ("anidb_anime_id", .int r.anidb_anime_id),
       ("title_main", .str r.title_main),
       ("title_alts", .list r.title_alts),
       ("description", .str r.description),
       ("tags", .list r.tags),
       ("episode_count_normal", .int r.episode_count_normal),
       ("episode_count_special", .int r.episode_count_special),
       ("air_date", isoDateVal r.air_date),
       ("end_date", isoDateVal r.end_date),
       ("begin_year", optIntVal r.begin_year),
       ("end_year", optIntVal r.end_year),
       ("rating", .int r.rating),
       ("vote_count", .int r.vote_count),
       ("avg_review_rating", .int r.avg_review_rating),
       ("review_count", .int r.review_count),
       ("ann_id", optIntVal r.ann_id),
       ("crunchyroll_id", optStrVal r.crunchyroll_id),
       ("wikipedia_id", optStrVal r.wikipedia_id),
       ("relations", .str r.relations),
       ("similar", .str r.similar)] }

/-- Character-level split on the pipe separator. -/
def splitPipeChars : List Char → List (List Char)
  | [] => [[]]
  | c :: cs =>
    match splitPipeChars cs with
    | [] => [[c]]
    | part :: parts => if c = '|' then [] :: part :: parts else (c :: part) :: parts

/-- Python `s.split` on the bare pipe. -/
def splitOnPipe (s : String) : List String :=
  (splitPipeChars s.data).map String.mk

/-- Splitting on the pipe regex then stripping each part is the same as
splitting on the bare pipe and stripping; empty parts are dropped
(`text_utils.split_pipe`, before deduplication). -/
def pipeParts (s : String) : List String :=
  ((splitOnPipe s).map pyStrip).filter fun p => p ≠ ""

/-- The first-seen case-insensitive deduplication loop of `split_pipe`:
`seen` holds the lowercased keys already emitted. -/
def dedupCIGo (seen : List String) : List String → List String
  | [] => []
  | p :: ps =>
    if pyLower p ∈ seen then dedupCIGo seen ps
    else p :: dedupCIGo (pyLower p :: seen) ps

/-- `text_utils.split_pipe`: split a pipe-separated field, strip and drop
empties, deduplicate case-insensitively keeping the first-seen casing. -/
def split_pipe (s : Option String) : List String :=
  match s with
  | Option.none => []
  | some s => if s = "" then [] else dedupCIGo [] (pipeParts s)

/-- One entry of the `titles` array of an AniDB JSON payload: a dict carrying
`title` and `type` strings (`""` for a missing key), or some other value the
parser skips. -/
inductive TitleEntry where
  | obj (title : String) (ttype : String)
  | other
  deriving DecidableEq, Repr

/-- One entry of the `tags` array of an AniDB JSON payload. -/
inductive TagEntry where
  | obj (name : String)
  | other
  deriving DecidableEq, Repr

/-- The `ratings` sub-dict of an AniDB JSON payload; `none` fields model
missing or `null` keys. -/
structure RatingsObj where
  permanent : Option Rat
  permanent_count : Option Int
  review : Option Rat
  review_count : Option Int
  deriving DecidableEq, Repr

/-- The value found under `ratings`: a dict, or something that fails the
parser's `isinstance(ratings, dict)` probe. -/
inductive RatingsVal where
  | obj (r : RatingsObj)
  | notDict
  deriving DecidableEq, Repr

/-- One entry of `related_anime` / `similar_anime`. -/
structure RelEntry where
  rid : Int
  rtype : String
  rtitle : String
  deriving DecidableEq, Repr

/-- The decoded AniDB JSON object handed to `parse_anidb_json`.  `Option`
fields model missing-or-`null` keys; string fields defaulted with
`data.get(k, "")` are plain strings with `""` for missing. -/
structure AniDbPayload where
  aid : Option Int
  title : String
  titles : List TitleEntry
  synopsis : String
  tags : List TagEntry
  episode_count_normal : Option Int
  episode_count_special : Option Int
  start_date : Option (List Char)
  end_date : Option (List Char)
  begin_year : Option Int
  end_year : Option Int
  ratings : Option RatingsVal
  ann_id : Option Int
  crunchyroll_id : Option String
  wikipedia_id : Option String
  related_anime : List RelEntry
  similar_anime : List RelEntry
  deriving DecidableEq, Repr

/-- Raw MCP response: decoded JSON object, or a string `json.loads` rejects. -/
inductive RawJson where
  | obj (p : AniDbPayload)
  | badStr (s : String)
  deriving DecidableEq, Repr

/-- Alternate-title extraction of `parse_anidb_json`: every dict entry whose
`title` is nonempty and whose `type` is not `"main"`, in order, no dedup. -/
def extractTitleAlts (titles : List TitleEntry) : List String :=
  titles.filterMap fun te =>
    match te with
    | .obj t ty => if t ≠ "" ∧ ty ≠ "main" then some t else Option.none
    | .other => Option.none

/-- Tag extraction of `parse_anidb_json`: every dict entry with a nonempty
`name`, in order, no dedup. -/
def extractTags (tags : List TagEntry) : List String :=
  tags.filterMap fun te =>
    match te with
    | .obj n => if n ≠ "" then some n else Option.none
    | .other => Option.none

/-- `data.get("ratings", (empty dict))`: a missing key behaves like an empty
ratings dict. -/
def ratingsOf : Option RatingsVal → RatingsVal
  | Option.none => .obj ⟨Option.none, Option.none, Option.none, Option.none⟩
  | some v => v

/-- Rating extraction of `parse_anidb_json`:
`(rating, vote_count, avg_review_rating, review_count)`.  Note the 0-10 to
0-1000 conversion uses Python `int()` — truncation toward zero — not
`round()`. -/
def ratingValues : RatingsVal → Int × Int × Int × Int
  | .notDict => (0, 0, 0, 0)
  | .obj ro =>
    let pr := ro.permanent.getD 0
    let rating := if pr = 0 then 0 else pyInt (pr * 100)
    let vc := ro.permanent_count.getD 0
    let avg :=
      match ro.review with
      | Option.none => 0
      | some rv => if rv = 0 then 0 else pyInt (rv * 100)
    let rc := ro.review_count.getD 0
    (rating, vc, avg, rc)

/-- Permissive date parsing in `parse_anidb_json`: a falsy date string is
skipped and a `fromisoformat` failure is caught — both resolve to `None`.
(The `"Z" to "+00:00"` rewrite is a timezone nicety outside this naive-date
model.) -/
def parsePermissiveDate : Option (List Char) → Option PyDateTime
  | Option.none => Option.none
  | some cs => if cs.isEmpty then Option.none else fromIsoChars cs

/-- Schematic stand-in for `json.dumps` on a relation list; the claims never
inspect the rendered text. -/
def dumpsRel (l : List RelEntry) : String :=
  "[" ++ String.intercalate ", " (l.map fun e =>
    "(" ++ toString e.rid ++ ", " ++ e.rtype ++ ", " ++ e.rtitle ++ ")") ++ "]"

/-- `mcp_anime_json_parser.parse_anidb_json`: normalize a raw AniDB payload
into a `ShowDoc`, failing on undecodable JSON, a falsy `aid`, a falsy
`title`, or a pydantic validation error. -/
def parse_anidb_json : RawJson → Except PyErr ShowDoc
  | .badStr s => .error (.valueError ("Invalid JSON: " ++ s))
  | .obj p =>
    match p.aid with
    | Option.none => .error (.valueError "Missing aid field in JSON")
    | some aid =>
      if aid = 0 then .error (.valueError "Missing aid field in JSON")
      else if p.title = "" then .error (.valueError "Missing title field in JSON")
      else
        let rf := ratingValues (ratingsOf p.ratings)
        mkShowDoc (toString aid) aid p.title (extractTitleAlts p.titles) p.synopsis
          (extractTags p.tags) (p.episode_count_normal.getD 0) (p.episode_count_special.getD 0)
          (parsePermissiveDate p.start_date) (parsePermissiveDate p.end_date)
          p.begin_year p.end_year rf.1 rf.2.1 rf.2.2.1 rf.2.2.2 p.ann_id
          p.crunchyroll_id p.wikipedia_id
          (if p.related_anime.isEmpty then "[]" else dumpsRel p.related_anime)
          (if p.similar_anime.isEmpty then "[]" else dumpsRel p.similar_anime)

/-- Fetch metadata added under `"_metadata"` by `save_showdoc`
(`fetched_at` timestamp, `source` tag). -/
structure FetchMeta where
  fetched_at : Nat
  source : String
  deriving DecidableEq, Repr

/-- The JSON object stored in a cache file: `ShowDoc.model_dump(mode="json")`
(dates as ISO strings) plus the optional `"_metadata"` entry. -/
structure StoredDoc where
  anime_id : String
  anidb_anime_id : Int
  title_main : String
  title_alts : List String
  description : String
  tags : List String
  episode_count_normal : Int
  episode_count_special : Int
  air_date : Option (List Char)
  end_date : Option (List Char)
  begin_year : Option Int
  end_year : Option Int
  rating : Int
  vote_count : Int
  avg_review_rating : Int
  review_count : Int
  ann_id : Option Int
  crunchyroll_id : Option String
  wikipedia_id : Option String
  relations : String
  similar : String
  meta : Option FetchMeta
  deriving DecidableEq, Repr

/-- `ShowDoc.model_dump(mode="json")` plus the `"_metadata"` entry written at
time `now` — the exact file content `save_showdoc` produces. -/
def ShowDoc.dump (r : ShowDoc) (now : Nat) : StoredDoc :=
  { anime_id := r.anime_id
    anidb_anime_id := r.anidb_anime_id
    title_main := r.title_main
    title_alts := r.title_alts
    description := r.description
    tags := r.tags
    episode_count_normal := r.episode_count_normal
    episode_count_special := r.episode_count_special
    air_date := r.air_date.map PyDateTime.isoChars
    end_date := r.end_date.map PyDateTime.isoChars
    begin_year := r.begin_year
    end_year := r.end_year
    rating := r.rating
    vote_count := r.vote_count
    avg_review_rating := r.avg_review_rating
    review_count := r.review_count
    ann_id := r.ann_id
    crunchyroll_id := r.crunchyroll_id
    wikipedia_id := r.wikipedia_id
    relations := r.relations
    similar := r.similar
    meta := some ⟨now, "mcp_anidb"⟩ }

/-- Reading back one optional date field in `load_showdoc`: `None` stays
`None`; a falsy (empty) string skips the `fromisoformat` call and then fails
pydantic datetime parsing; a nonempty string goes through `fromisoformat`,
whose failure propagates. -/
def parseStoredDate : Option (List Char) → Except PyErr (Option PyDateTime)
  | Option.none => .ok Option.none
  | some cs =>
    if cs.isEmpty then .error (.valueError "invalid datetime")
    else
      match fromIsoChars cs with
      | some t => .ok (some t)
      | Option.none => .error (.valueError "Invalid isoformat string")

/-- Rebuilding `ShowDoc(**data)` from a stored file in `load_showdoc`: drop
the popped `"_metadata"`, reparse the ISO date strings, then revalidate. -/
def parseStored (s : StoredDoc) : Except PyErr ShowDoc := do
  let air ← parseStoredDate s.air_date
  let endd ← parseStoredDate s.end_date
  mkShowDoc s.anime_id s.anidb_anime_id s.title_main s.title_alts s.description s.tags
    s.episode_count_normal s.episode_count_special air endd s.begin_year s.end_year
    s.rating s.vote_count s.avg_review_rating s.review_count s.ann_id
    s.crunchyroll_id s.wikipedia_id s.relations s.similar

/-- One record of the cache index: `(title, anime_id, file, updated)` keyed by
the stringified AniDB id. -/
structure IndexEntry where
  title : String
  anime_id : String
  file : String
  updated : Nat
  deriving DecidableEq, Repr

/-- Content of one cache file on disk: a well-formed stored record, or bytes
`json.load` rejects. -/
inductive FileData where
  | wellFormed (d : StoredDoc)
  | malformed
  deriving DecidableEq, Repr

/-- The observable state of a `ShowDocPersistence` cache directory: the data
files and the loaded `index.json` mapping. -/
structure CacheState where
  files : List (String × FileData)
  index : List (String × IndexEntry)
  deriving DecidableEq, Repr

/-- `ShowDocPersistence.save_showdoc` at wall-clock time `now`: write the
dumped record to `(aid).json` and update-and-persist the index entry. -/
def save_showdoc (st : CacheState) (r : ShowDoc) (now : Nat) : CacheState :=
  { files := setEntry (toString r.anidb_anime_id ++ ".json")
      (.wellFormed (r.dump now)) st.files
    index := setEntry (toString r.anidb_anime_id)
      ⟨r.title_main, r.anime_id, toString r.anidb_anime_id ++ ".json", now⟩ st.index }

/-- `ShowDocPersistence.load_showdoc`: `None` when the id is not indexed or the
indexed file is missing; a parse failure on an existing file propagates. -/
def load_showdoc (st : CacheState) (aid : Int) : Except PyErr (Option ShowDoc) :=
  match st.index.lookup (toString aid) with
  | Option.none => .ok Option.none
  | some entry =>
    match st.files.lookup entry.file with
    | Option.none => .ok Option.none
    | some .malformed => .error (.jsonDecodeError "Expecting value")
    | some (.wellFormed d) => (parseStored d).map some

/-- `ShowDocPersistence.exists`: an index-only membership probe. -/
def cacheContains (st : CacheState) (aid : Int) : Bool :=
  (st.index.lookup (toString aid)).isSome

/-- Well-formedness of a document's metadata dict: Python dict keys are
unique. -/
def Doc.WF (d : Doc) : Prop :=
  (d.metadata.map Prod.fst).Nodup

instance (d : Doc) : Decidable d.WF := by
  unfold Doc.WF
  infer_instance

/-- `langchain`'s `filter_complex_metadata` on one document: keep only scalar
(`str`/`bool`/`int`/`float`) metadata values. -/
def filterComplexMetadata (d : Doc) : Doc :=
  { d with metadata := d.metadata.filter fun p => p.2.scalar }

/-- The embedded vector store: a bag of `(stable_id, document)` entries.  The
real store (Chroma) is a black box; only `delete(where anime_id in ids)` and
`add_documents(docs, ids)` are modelled, as the upsert path uses them. -/
structure VStore where
  entries : List (String × Doc)
  deriving DecidableEq, Repr

/-- `vs.delete(where anime_id in ids)`: drop every entry whose document's
`anime_id` metadata string is among `ids`. -/
def VStore.deleteByAnimeIds (vs : VStore) (ids : List String) : VStore :=
  { entries := vs.entries.filter fun p =>
      match p.2.animeId with
      | some (.str s) => !ids.contains s
      | _ => true }

/-- `vs.add_documents(docs, ids)`. -/
def VStore.addDocuments (vs : VStore) (docs : List Doc) (ids : List String) : VStore :=
  { entries := vs.entries ++ ids.zip docs }

/-- The id-collection loop of `upsert_documents`: raise on the first filtered
document without a truthy `anime_id`, else collect `str(anime_id)` per
document. -/
def extractIds : List Doc → Except PyErr (List String)
  | [] => .ok []
  | d :: ds =>
    match d.animeId with
    | some v =>
      if v.truthy then
        match extractIds ds with
        | .ok ids => .ok (v.pyStr :: ids)
        | .error e => .error e
      else .error (.valueError "Document missing anime_id in metadata")
    | Option.none => .error (.valueError "Document missing anime_id in metadata")

/-- `vectorstore_service.upsert_documents`: validate the whole (filtered)
batch before any mutation, then delete-by-id and insert.  The returned store
is the store the call leaves behind — unchanged whenever the call raises. -/
def upsert_documents (docs : List Doc) (vs : VStore) :
    Except PyErr (List String) × VStore :=
  if docs.isEmpty then (.ok [], vs)
  else
    let filtered := docs.map filterComplexMetadata
    match extractIds filtered with
    | .error e => (.error e, vs)
    | .ok ids => (.ok ids, (vs.deleteByAnimeIds ids).addDocuments filtered ids)

/-- The accumulation loop of `batch_utils.chunked`: emit a batch whenever it
reaches `size`, and the leftover partial batch at the end. -/
def chunkedGo {α : Type} (size : Nat) (batch : List α) : List α → List (List α)
  | [] => if batch.isEmpty then [] else [batch]
  | x :: xs =>
    let b := batch ++ [x]
    if size ≤ b.length then b :: chunkedGo size [] xs else chunkedGo size b xs

/-- `batch_utils.chunked`: reject a nonpositive size, else stream fixed-size
batches. -/
def chunked {α : Type} (l : List α) (size : Nat) : Except PyErr (List (List α)) :=
  if size = 0 then .error (.valueError "Chunk size must be positive")
  else .ok (chunkedGo size [] l)

/-- The batch loop of `ingest_showdocs_streaming`: upsert each batch in turn,
recording every issued upsert call; a failing batch aborts and propagates. -/
def ingestGo (vs : VStore) (total : Nat) (calls : List (List Doc)) :
    List (List Doc) → Except PyErr (Nat × List (List Doc) × VStore)
  | [] => .ok (total, calls, vs)
  | b :: bs =>
    match upsert_documents b vs with
    | (.error e, _) => .error e
    | (.ok _, vs2) => ingestGo vs2 (total + b.length) (calls ++ [b]) bs

/-- `ingest_service.ingest_showdocs_streaming`: convert each record to a
document, batch with `chunked`, upsert batch by batch; returns the reported
total together with the issued upsert calls and the final store. -/
def ingest_showdocs_streaming (records : List ShowDoc) (batch_size : Nat) (vs : VStore) :
    Except PyErr (Nat × List (List Doc) × VStore) :=
  if batch_size = 0 then .error (.valueError "batch_size must be positive")
  else
    match chunked (records.map ShowDoc.to_langchain_doc) batch_size with
    | .error e => .error e
    | .ok batches => ingestGo vs 0 [] batches

/-- One MCP search hit as the orchestrator probes it: `aid` is the extracted
anime id (`none` models a hit from which no `aid` attribute or key can be
read, which the loop skips with a warning). -/
structure SearchHit where
  aid : Option Int
  deriving DecidableEq, Repr

/-- The effectful collaborators of the fallback path, as oracles: each field
records what the corresponding awaited call would return (or raise) during
this orchestrator invocation.  `extract_title` never fails — the extraction
helper catches its own LLM errors and falls back to the raw query. -/
structure MCPEnv where
  extract_title : String
  connect : Except PyErr Unit
  search_anime : String → Except PyErr (List SearchHit)
  cache_exists : Int → Bool
  load_cached : Int → Except PyErr (Option Doc)
  get_details : Int → Except PyErr (Option RawJson)
  save_doc : ShowDoc → Except PyErr Unit
  upsert_doc : Doc → Except PyErr Unit

/-- The per-hit body of the fallback loop: skip hits without a truthy aid,
serve from cache when possible, otherwise fetch, parse, persist, and upsert.
Returns the documents this hit contributes to `mcp_docs`. -/
def process_hit (env : MCPEnv) (hit : SearchHit) : Except PyErr (List Doc) :=
  match hit.aid with
  | Option.none => .ok []
  | some aid =>
    if aid = 0 then .ok []
    else do
      let cached ← if env.cache_exists aid then env.load_cached aid else pure Option.none
      match cached with
      | some d => pure [d]
      | Option.none => do
        let payload ← env.get_details aid
        match payload with
        | Option.none => pure []
        | some raw => do
          let sd ← parse_anidb_json raw
          let _ ← env.save_doc sd
          let d := sd.to_langchain_doc
          let _ ← env.upsert_doc d
          pure [d]

/-- Fold `process_hit` over the (already truncated) hit list, concatenating
the contributed documents. -/
def processHits (env : MCPEnv) : List SearchHit → Except PyErr (List Doc)
  | [] => .ok []
  | h :: t => do
    let ds ← process_hit env h
    let rest ← processHits env t
    pure (ds ++ rest)

/-- Tag every local result with its distance score, preserving order — the
shape of each of the orchestrator's local-only returns. -/
def tagAll (results : List (Doc × Rat)) : List Doc :=
  results.map fun p => tagScore p.1 p.2

/-- First phase of the merge: MCP documents enter first, each tagged with
distance `0.0`, deduplicated by truthy `anime_id`; returns the emitted
documents and the set of seen ids. -/
def mergeMcpGo (seen : List MVal) : List Doc → List Doc × List MVal
  | [] => ([], seen)
  | d :: ds =>
    match d.animeId with
    | some v =>
      if v.truthy ∧ v ∉ seen then
        let r := mergeMcpGo (v :: seen) ds
        (tagScore d 0 :: r.1, r.2)
      else mergeMcpGo seen ds
    | Option.none => mergeMcpGo seen ds

/-- Second phase of the merge: local results enter with their own distance
scores, skipping ids already seen (and untruthy ids). -/
def mergeLocalGo (seen : List MVal) : List (Doc × Rat) → List Doc
  | [] => []
  | (d, dist) :: rest =>
    match d.animeId with
    | some v =>
      if v.truthy ∧ v ∉ seen then tagScore d dist :: mergeLocalGo (v :: seen) rest
      else mergeLocalGo seen rest
    | Option.none => mergeLocalGo seen rest

/-- The merge-and-deduplicate block of `search_with_mcp_fallback`
(externally fetched documents first at distance `0.0`, then local results,
one entry per truthy `anime_id`). -/
def merge_docs (mcp_docs : List Doc) (results : List (Doc × Rat)) : List Doc :=
  let r := mergeMcpGo [] mcp_docs
  r.1 ++ mergeLocalGo r.2 results

/-- The `try`-block of the fallback path (steps 5-7): connect, search, process
the top hit, merge.  An empty search result list returns the local results
tagged with their scores. -/
def fallback_body (results : List (Doc × Rat)) (env : MCPEnv) : Except PyErr (List Doc) := do
  let _ ← env.connect
  let hits ← env.search_anime env.extract_title
  if hits.isEmpty then pure (tagAll results)
  else do
    let mcp_docs ← processHits env (hits.take 1)
    pure (merge_docs mcp_docs results)

/-- The configuration the orchestrator reads: the two thresholds and the
fallback enable flag. -/
structure OrchConfig where
  count_threshold : Int
  score_threshold : Rat
  mcp_enabled : Bool
  deriving DecidableEq, Repr

/-- `min((score for _, score in results), default=+inf)`: the best (minimum)
distance, `⊤` on an empty result list. -/
def bestScore (results : List (Doc × Rat)) : WithTop Rat :=
  (results.map fun p => p.2).minimum

/-- `rag_service.search_with_mcp_fallback`, with the vector-store query
results and the effectful fallback collaborators supplied as inputs: reject
an empty query, accept when both thresholds are met, pass through when
fallback is disabled, otherwise run the fallback body and absorb any of its
failures into the local-only result. -/
def search_with_mcp_fallback (query : String) (cfg : OrchConfig)
    (results : List (Doc × Rat)) (env : MCPEnv) : Except PyErr (List Doc) :=
  if pyStrip query = "" then .error (.valueError "Query cannot be empty")
  else
    if cfg.count_threshold ≤ (results.length : Int) ∧
        bestScore results ≤ (cfg.score_threshold : WithTop Rat) then .ok (tagAll results)
    else if cfg.mcp_enabled = false then .ok (tagAll results)
    else
      match fallback_body results env with
      | .ok docs => .ok docs
      | .error _ => .ok (tagAll results)

/-- The acceptance test of step 3, as the source computes it. -/
def accepts (cfg : OrchConfig) (results : List (Doc × Rat)) : Prop :=
  cfg.count_threshold ≤ (results.length : Int) ∧
    bestScore results ≤ (cfg.score_threshold : WithTop Rat)

instance (cfg : OrchConfig) (results : List (Doc × Rat)) : Decidable (accepts cfg results) := by
  unfold accepts
  infer_instance

/-- Expected batch sizes when `n` items are split into batches of `size`:
full batches of `size` followed by the positive remainder. -/
def lengthsOf : Nat → Nat → List Nat
  | _, 0 => []
  | 0, n + 1 => [n + 1]
  | size + 1, n + 1 =>
    if n + 1 ≤ size + 1 then [n + 1]
    else (size + 1) :: lengthsOf (size + 1) (n + 1 - (size + 1))
termination_by size n => n
decreasing_by omega

def docW1 : Doc := ⟨"Cowboy Bebop", [("anime_id", .str "1")]⟩

def cfgW1 : OrchConfig := ⟨3, 7/10, false⟩

def envTrivial : MCPEnv :=
  ⟨"cowboy bebop", .ok (), fun _ => .ok [], fun _ => false, fun _ => .ok Option.none,
    fun _ => .ok Option.none, fun _ => .ok (), fun _ => .ok ()⟩

def envW2 : MCPEnv :=
  ⟨"naruto", .error (.runtimeError "MCP server connection failed"), fun _ => .ok [],
    fun _ => false, fun _ => .ok Option.none, fun _ => .ok Option.none,
    fun _ => .ok (), fun _ => .ok ()⟩

def cfgW2 : OrchConfig := ⟨3, 7/10, true⟩

def extW3 : Doc := ⟨"external", [("anime_id", .str "1")]⟩

def locW3 : Doc := ⟨"local", [("anime_id", .str "1")]⟩

def rW4 : ShowDoc :=
  ⟨"123", 123, "Cowboy Bebop", ["CB"], "space bounty hunters", ["action"], 26, 1,
    some ⟨1998, 4, 3, 0, 0, 0⟩, some ⟨1999, 4, 24, 0, 0, 0⟩, some 1998, some 1999,
    861, 100, 0, 0, Option.none, Option.none, Option.none, "[]", "[]"⟩

def stW5 : CacheState :=
  ⟨[("9.json", .malformed)],
    [("7", ⟨"t", "7", "7.json", 0⟩), ("9", ⟨"u", "9", "9.json", 1⟩)]⟩

def payloadC6 : AniDbPayload :=
  ⟨some 1, "X", [], "", [], Option.none, Option.none, Option.none, Option.none,
    Option.none, Option.none,
    some (.obj ⟨some (mkRat 43 8), Option.none, Option.none, Option.none⟩),
    Option.none, Option.none, Option.none, [], []⟩

/-- Rating of a parse result, `None` when parsing failed. -/
def ratingOf : Except PyErr ShowDoc → Option Int
  | .ok d => some d.rating
  | .error _ => Option.none

def dC6 : ShowDoc :=
  ⟨"1", 1, "X", [], "", [], 0, 0, Option.none, Option.none, Option.none, Option.none,
    537, 0, 0, 0, Option.none, Option.none, Option.none, "[]", "[]"⟩

def payloadW6 : AniDbPayload :=
  ⟨some 1, "X", [], "", [], Option.none, Option.none, Option.none, Option.none,
    Option.none, Option.none,
    some (.obj ⟨some (mkRat 17 2), Option.none, Option.none, Option.none⟩),
    Option.none, Option.none, Option.none, [], []⟩

def dW6 : ShowDoc :=
  ⟨"1", 1, "X", [], "", [], 0, 0, Option.none, Option.none, Option.none, Option.none,
    850, 0, 0, 0, Option.none, Option.none, Option.none, "[]", "[]"⟩

def payloadC7 : AniDbPayload :=
  ⟨some 1, "X", [.obj "Naruto" "official", .obj "NARUTO" "synonym"], "", [],
    Option.none, Option.none, Option.none, Option.none, Option.none, Option.none,
    Option.none, Option.none, Option.none, Option.none, [], []⟩

/-- Alternate titles of a parse result, `None` when parsing failed. -/
def titleAltsOf : Except PyErr ShowDoc → Option (List String)
  | .ok d => some d.title_alts
  | .error _ => Option.none

/-- Whether a string list is case-insensitively duplicate-free. -/
def ciDistinct : List String → Bool
  | [] => true
  | x :: xs => (xs.all fun y => pyLower y != pyLower x) && ciDistinct xs

def dW7 : ShowDoc :=
  ⟨"1", 1, "X", ["Naruto", "NARUTO"], "", [], 0, 0, Option.none, Option.none,
    Option.none, Option.none, 0, 0, 0, 0, Option.none, Option.none, Option.none,
    "[]", "[]"⟩

def recW8 (i : Nat) : ShowDoc :=
  ⟨toString (i + 1), (i : Int) + 1, "T", [], "", [], 0, 0, Option.none, Option.none,
    Option.none, Option.none, 0, 0, 0, 0, Option.none, Option.none, Option.none,
    "[]", "[]"⟩

def recsW8 : List ShowDoc := (List.range 23).map recW8

/-- Reported total of an ingest run, `None` when it failed. -/
def ingestTotal : Except PyErr (Nat × List (List Doc) × VStore) → Option Nat
  | .ok (t, _, _) => some t
  | .error _ => Option.none

/-- Sizes of the upsert calls an ingest run issued, `None` when it failed. -/
def ingestCallSizes : Except PyErr (Nat × List (List Doc) × VStore) → Option (List Nat)
  | .ok (_, calls, _) => some (calls.map List.length)
  | .error _ => Option.none

def extW9 : Doc := ⟨"external", [("anime_id", .str "2")]⟩

def goodW9 : Doc := ⟨"good", [("anime_id", .str "3")]⟩

def badW9 : Doc := ⟨"bad", [("title_main", .str "t")]⟩

def badW10 : Doc := ⟨"no id", [("title_main", .str "x")]⟩

def vsW10 : VStore := ⟨[("2", extW9)]⟩

theorem lookup_setEntry_self {α : Type} (k : String) (v : α) (l : List (String × α)) :
    (setEntry k v l).lookup k = some v := by
  induction l with
  | nil => simp [setEntry, List.lookup]
  | cons p rest ih =>
    obtain ⟨q, w⟩ := p
    by_cases h : q = k
    · simp [setEntry, h, List.lookup]
    · have hbe : (k == q) = false := beq_eq_false_iff_ne.mpr (Ne.symm h)
      simp [setEntry, h, List.lookup, hbe, ih]

theorem lookup_setEntry_ne {α : Type} {k k2 : String} (v : α) (l : List (String × α))
    (h : k ≠ k2) : (setEntry k v l).lookup k2 = l.lookup k2 := by
  have hbe : (k2 == k) = false := beq_eq_false_iff_ne.mpr (Ne.symm h)
  induction l with
  | nil => simp [setEntry, List.lookup, hbe]
  | cons p rest ih =>
    obtain ⟨q, w⟩ := p
    by_cases hq : q = k
    · subst hq
      simp [setEntry, List.lookup, hbe]
    · simp [setEntry, hq, List.lookup, ih]

theorem getMeta_setMeta_ne (d : Doc) {k k2 : String} (v : MVal) (h : k ≠ k2) :
    (d.setMeta k v).getMeta k2 = d.getMeta k2 :=
  lookup_setEntry_ne v d.metadata h

theorem animeId_tagScore (d : Doc) (s : Rat) : (tagScore d s).animeId = d.animeId :=
  getMeta_setMeta_ne d _ (by decide)

theorem hasAnimeId_tagScore (d : Doc) (s : Rat) :
    (tagScore d s).hasAnimeId = d.hasAnimeId := by
  unfold Doc.hasAnimeId
  rw [animeId_tagScore]

theorem digitChar_isDigit (n : Nat) : (digitChar n).isDigit = true := by
  have h : n % 10 < 10 := Nat.mod_lt _ (by norm_num)
  unfold digitChar
  interval_cases h2 : n % 10 <;> decide

theorem digitVal_digitChar (n : Nat) : digitVal (digitChar n) = n % 10 := by
  have h : n % 10 < 10 := Nat.mod_lt _ (by norm_num)
  unfold digitChar digitVal
  interval_cases h2 : n % 10 <;> decide

/-- Key serialization fact behind the cache round-trip: `fromisoformat`
inverts `isoformat` on every naive in-range datetime. -/
theorem fromIsoChars_isoChars (t : PyDateTime) (hv : t.Valid) :
    fromIsoChars t.isoChars = some t := by
  obtain ⟨y, m, d, hh, mm, ss⟩ := t
  obtain ⟨h1, h2, h3, h4, h5, h6, h7, h8, h9⟩ := hv
  simp only at h1 h2 h3 h4 h5 h6 h7 h8 h9
  show fromIsoChars
      (pad4 y ++ '-' :: (pad2 m ++ '-' :: (pad2 d ++ 'T' ::
        (pad2 hh ++ ':' :: (pad2 mm ++ ':' :: pad2 ss))))) = _
  simp only [pad4, pad2, List.cons_append, List.nil_append]
  rw [fromIsoChars]
  rw [if_pos]
  · rw [if_pos]
    · congr 1
      simp only [digitVal_digitChar, PyDateTime.mk.injEq]
      refine ⟨by omega, by omega, by omega, by omega, by omega, by omega⟩
    · simp only [digitVal_digitChar, PyDateTime.Valid]
      refine ⟨by omega, by omega, by omega, by omega, by omega, by omega, by omega,
        by omega, by omega⟩
  · refine ⟨rfl, rfl, rfl, rfl, rfl, ?_⟩
    simp [List.all_cons, digitChar_isDigit]

theorem mkShowDoc_ok_eq {anime_id : String} {anidb_anime_id : Int} {title_main : String}
    {title_alts : List String} {description : String} {tags : List String}
    {episode_count_normal episode_count_special : Int}
    {air_date end_date : Option PyDateTime} {begin_year end_year : Option Int}
    {rating vote_count avg_review_rating review_count : Int}
    {ann_id : Option Int} {crunchyroll_id wikipedia_id : Option String}
    {relations similar : String} {d : ShowDoc}
    (h : mkShowDoc anime_id anidb_anime_id title_main title_alts description tags
      episode_count_normal episode_count_special air_date end_date begin_year end_year
      rating vote_count avg_review_rating review_count ann_id crunchyroll_id wikipedia_id
      relations similar = .ok d) :
    d = { anime_id := pyStrip anime_id
          anidb_anime_id
          title_main := pyStrip title_main
          title_alts := cleanStringList title_alts
          description
          tags := cleanStringList tags
          episode_count_normal
          episode_count_special
          air_date
          end_date
          begin_year
          end_year
          rating
          vote_count
          avg_review_rating
          review_count
          ann_id
          crunchyroll_id := normalizeOptString crunchyroll_id
          wikipedia_id := normalizeOptString wikipedia_id
          relations
          similar } := by
  unfold mkShowDoc at h
  split at h
  · exact Except.noConfusion h
  · injection h with h2
    exact h2.symm

theorem animeId_to_langchain_doc (r : ShowDoc) :
    r.to_langchain_doc.animeId = some (.str r.anime_id) := rfl

theorem orch_returns_local (query : String) (cfg : OrchConfig) (results : List (Doc × Rat))
    (env : MCPEnv) (hq : pyStrip query ≠ "")
    (h : accepts cfg results ∨ cfg.mcp_enabled = false) :
    search_with_mcp_fallback query cfg results env = .ok (tagAll results) := by
  unfold accepts at h
  unfold search_with_mcp_fallback
  rw [if_neg hq]
  split_ifs with h1 h2
  · rfl
  · rfl
  · rcases h with h | h
    · exact absurd h h1
    · exact absurd h h2

theorem orch_fallback_run (query : String) (cfg : OrchConfig) (results : List (Doc × Rat))
    (env : MCPEnv) (hq : pyStrip query ≠ "") (hacc : ¬ accepts cfg results)
    (hen : cfg.mcp_enabled = true) :
    search_with_mcp_fallback query cfg results env =
      match fallback_body results env with
      | .ok docs => .ok docs
      | .error _ => .ok (tagAll results) := by
  unfold accepts at hacc
  unfold search_with_mcp_fallback
  rw [if_neg hq, if_neg hacc, if_neg (by simp [hen])]

theorem orch_fallback_caught (query : String) (cfg : OrchConfig) (results : List (Doc × Rat))
    (env : MCPEnv) (e : PyErr) (hq : pyStrip query ≠ "") (hacc : ¬ accepts cfg results)
    (hen : cfg.mcp_enabled = true) (hbody : fallback_body results env = .error e) :
    search_with_mcp_fallback query cfg results env = .ok (tagAll results) := by
  rw [orch_fallback_run query cfg results env hq hacc hen, hbody]

theorem mergeLocalGo_mem (seen : List MVal) (l : List (Doc × Rat)) :
    ∀ d ∈ mergeLocalGo seen l, ∃ v, d.animeId = some v ∧ v.truthy = true ∧ v ∉ seen ∧
      ∃ p ∈ l, d = tagScore p.1 p.2 := by
  induction l generalizing seen with
  | nil => simp [mergeLocalGo]
  | cons hd tl ih =>
    obtain ⟨hd1, hd2⟩ := hd
    intro d hd
    rw [mergeLocalGo] at hd
    rcases hv : hd1.animeId with _ | v
    · simp only [hv] at hd
      obtain ⟨v, h1, h2, h3, p, hp, hpe⟩ := ih seen d hd
      exact ⟨v, h1, h2, h3, p, List.mem_cons_of_mem _ hp, hpe⟩
    · simp only [hv] at hd
      by_cases hc : v.truthy ∧ v ∉ seen
      · rw [if_pos hc] at hd
        rcases List.mem_cons.mp hd with rfl | hmem
        · refine ⟨v, ?_, hc.1, hc.2, (hd1, hd2), List.mem_cons_self _ _, rfl⟩
          rw [animeId_tagScore]
          exact hv
        · obtain ⟨w, h1, h2, h3, p, hp, hpe⟩ := ih (v :: seen) d hmem
          exact ⟨w, h1, h2, fun hw => h3 (List.mem_cons_of_mem _ hw), p,
            List.mem_cons_of_mem _ hp, hpe⟩
      · rw [if_neg hc] at hd
        obtain ⟨w, h1, h2, h3, p, hp, hpe⟩ := ih seen d hd
        exact ⟨w, h1, h2, h3, p, List.mem_cons_of_mem _ hp, hpe⟩

theorem mergeLocalGo_pairwise (seen : List MVal) (l : List (Doc × Rat)) :
    (mergeLocalGo seen l).Pairwise fun d e => d.animeId ≠ e.animeId := by
  induction l generalizing seen with
  | nil => simp [mergeLocalGo]
  | cons hd tl ih =>
    obtain ⟨hd1, hd2⟩ := hd
    rw [mergeLocalGo]
    rcases hv : hd1.animeId with _ | v
    · simp only [hv]
      exact ih seen
    · simp only [hv]
      by_cases hc : v.truthy ∧ v ∉ seen
      · rw [if_pos hc]
        refine List.Pairwise.cons ?_ (ih (v :: seen))
        intro e he heq
        obtain ⟨w, h1, _, h3, _⟩ := mergeLocalGo_mem (v :: seen) tl e he
        rw [animeId_tagScore, hv] at heq
        rw [h1] at heq
        exact h3 (by rw [Option.some_inj.mp heq.symm]; exact List.mem_cons_self _ _)
      · rw [if_neg hc]
        exact ih seen

theorem mergeMcpGo_mem (seen : List MVal) (l : List Doc) :
    ∀ d ∈ (mergeMcpGo seen l).1, ∃ v, d.animeId = some v ∧ v.truthy = true ∧ v ∉ seen ∧
      ∃ d0 ∈ l, d = tagScore d0 0 := by
  induction l generalizing seen with
  | nil => simp [mergeMcpGo]
  | cons hd tl ih =>
    intro d hmem
    rw [mergeMcpGo] at hmem
    rcases hv : hd.animeId with _ | v
    · simp only [hv] at hmem
      obtain ⟨v, h1, h2, h3, d0, hd0, hde⟩ := ih seen d hmem
      exact ⟨v, h1, h2, h3, d0, List.mem_cons_of_mem _ hd0, hde⟩
    · simp only [hv] at hmem
      by_cases hc : v.truthy ∧ v ∉ seen
      · rw [if_pos hc] at hmem
        rcases List.mem_cons.mp hmem with rfl | hmem2
        · refine ⟨v, ?_, hc.1, hc.2, hd, List.mem_cons_self _ _, rfl⟩
          rw [animeId_tagScore]
          exact hv
        · obtain ⟨w, h1, h2, h3, d0, hd0, hde⟩ := ih (v :: seen) d hmem2
          exact ⟨w, h1, h2, fun hw => h3 (List.mem_cons_of_mem _ hw), d0,
            List.mem_cons_of_mem _ hd0, hde⟩
      · rw [if_neg hc] at hmem
        obtain ⟨w, h1, h2, h3, d0, hd0, hde⟩ := ih seen d hmem
        exact ⟨w, h1, h2, h3, d0, List.mem_cons_of_mem _ hd0, hde⟩

theorem except_bind_ok {ε α β : Type} (a : α) (f : α → Except ε β) :
    (Except.ok a >>= f) = f a := rfl

theorem except_bind_error {ε α β : Type} (e : ε) (f : α → Except ε β) :
    ((Except.error e : Except ε α) >>= f) = .error e := rfl

theorem except_pure {ε α : Type} (a : α) : (pure a : Except ε α) = .ok a := rfl

theorem fallback_body_connect_error (results : List (Doc × Rat)) (env : MCPEnv) (e : PyErr)
    (h : env.connect = .error e) : fallback_body results env = .error e := by
  simp only [fallback_body, h, except_bind_error]

theorem fallback_body_search_error (results : List (Doc × Rat)) (env : MCPEnv) (e : PyErr)
    (hc : env.connect = .ok ()) (hs : env.search_anime env.extract_title = .error e) :
    fallback_body results env = .error e := by
  simp only [fallback_body, hc, except_bind_ok, hs, except_bind_error]

theorem processHits_single_error (env : MCPEnv) (hit : SearchHit) (e : PyErr)
    (h : process_hit env hit = .error e) : processHits env [hit] = .error e := by
  simp only [processHits, h, except_bind_error]

theorem fallback_body_hit_error (results : List (Doc × Rat)) (env : MCPEnv) (e : PyErr)
    (hit : SearchHit) (hc : env.connect = .ok ())
    (hs : env.search_anime env.extract_title = .ok [hit])
    (hp : process_hit env hit = .error e) : fallback_body results env = .error e := by
  simp only [fallback_body, hc, except_bind_ok, hs, List.isEmpty_cons, List.take_succ_cons,
    List.take_nil, if_neg (by simp : ¬(false = true)), processHits_single_error env hit e hp,
    except_bind_error]

theorem process_hit_load_error (env : MCPEnv) (aid : Int) (e : PyErr) (haid : aid ≠ 0)
    (hce : env.cache_exists aid = true) (hl : env.load_cached aid = .error e) :
    process_hit env ⟨some aid⟩ = .error e := by
  simp only [process_hit, if_neg haid, hce, if_true, hl, except_bind_error]

theorem process_hit_cacheMiss (env : MCPEnv) (aid : Int) (haid : aid ≠ 0)
    (hce : env.cache_exists aid = false) :
    process_hit env ⟨some aid⟩ =
      (env.get_details aid >>= fun payload =>
        match payload with
        | Option.none => pure []
        | some raw => do
          let sd ← parse_anidb_json raw
          let _ ← env.save_doc sd
          let _ ← env.upsert_doc sd.to_langchain_doc
          pure [sd.to_langchain_doc]) := by
  simp only [process_hit, if_neg haid, hce, Bool.false_eq_true, if_false, except_pure,
    except_bind_ok]

theorem process_hit_fetch_error (env : MCPEnv) (aid : Int) (e : PyErr) (haid : aid ≠ 0)
    (hce : env.cache_exists aid = false) (hd : env.get_details aid = .error e) :
    process_hit env ⟨some aid⟩ = .error e := by
  rw [process_hit_cacheMiss env aid haid hce, hd, except_bind_error]

theorem process_hit_parse_error (env : MCPEnv) (aid : Int) (raw : RawJson) (e : PyErr)
    (haid : aid ≠ 0) (hce : env.cache_exists aid = false)
    (hd : env.get_details aid = .ok (some raw)) (hp : parse_anidb_json raw = .error e) :
    process_hit env ⟨some aid⟩ = .error e := by
  rw [process_hit_cacheMiss env aid haid hce, hd, except_bind_ok]
  simp only [hp, except_bind_error]

theorem process_hit_save_error (env : MCPEnv) (aid : Int) (raw : RawJson) (sd : ShowDoc)
    (e : PyErr) (haid : aid ≠ 0) (hce : env.cache_exists aid = false)
    (hd : env.get_details aid = .ok (some raw)) (hp : parse_anidb_json raw = .ok sd)
    (hsv : env.save_doc sd = .error e) : process_hit env ⟨some aid⟩ = .error e := by
  rw [process_hit_cacheMiss env aid haid hce, hd, except_bind_ok]
  simp only [hp, except_bind_ok, hsv, except_bind_error]

theorem process_hit_upsert_error (env : MCPEnv) (aid : Int) (raw : RawJson) (sd : ShowDoc)
    (e : PyErr) (haid : aid ≠ 0) (hce : env.cache_exists aid = false)
    (hd : env.get_details aid = .ok (some raw)) (hp : parse_anidb_json raw = .ok sd)
    (hsv : env.save_doc sd = .ok ()) (hup : env.upsert_doc sd.to_langchain_doc = .error e) :
    process_hit env ⟨some aid⟩ = .error e := by
  rw [process_hit_cacheMiss env aid haid hce, hd, except_bind_ok]
  simp only [hp, except_bind_ok, hsv, hup, except_bind_error]

theorem lookup_none_of_not_key {α : Type} (k : String) (l : List (String × α))
    (h : k ∉ l.map Prod.fst) : l.lookup k = Option.none := by
  induction l with
  | nil => simp [List.lookup]
  | cons p rest ih =>
    obtain ⟨q, w⟩ := p
    rw [List.map_cons, List.mem_cons] at h
    push_neg at h
    rw [List.lookup]
    have hq : (k == q) = false := beq_eq_false_iff_ne.mpr h.1
    rw [hq]
    exact ih h.2

theorem lookup_filter_scalar_none (k : String) (l : List (String × MVal))
    (h : l.lookup k = Option.none) :
    (l.filter fun p => p.2.scalar).lookup k = Option.none := by
  induction l with
  | nil => simp [List.lookup]
  | cons p rest ih =>
    obtain ⟨q, w⟩ := p
    rw [List.lookup] at h
    cases hq : (k == q) with
    | true => rw [hq] at h; exact absurd h (by simp)
    | false =>
      rw [hq] at h
      rw [List.filter_cons]
      cases hw : w.scalar with
      | true => simp only [hw, if_true, List.lookup, hq]; exact ih h
      | false => simp only [hw, Bool.false_eq_true, if_false]; exact ih h

theorem lookup_filter_scalar_some (k : String) (v : MVal) (l : List (String × MVal))
    (h : l.lookup k = some v) (hs : v.scalar = true) :
    (l.filter fun p => p.2.scalar).lookup k = some v := by
  induction l with
  | nil => simp [List.lookup] at h
  | cons p rest ih =>
    obtain ⟨q, w⟩ := p
    rw [List.lookup] at h
    cases hq : (k == q) with
    | true =>
      rw [hq] at h
      have hw : w = v := by simpa using h
      subst hw
      rw [List.filter_cons]
      simp only [hs, if_true, List.lookup, hq]
    | false =>
      rw [hq] at h
      rw [List.filter_cons]
      cases hw : w.scalar with
      | true => simp only [hw, if_true, List.lookup, hq]; exact ih h
      | false => simp only [hw, Bool.false_eq_true, if_false]; exact ih h

theorem lookup_filter_scalar_drop (k : String) (v : MVal) (l : List (String × MVal))
    (hnd : (l.map Prod.fst).Nodup) (h : l.lookup k = some v) (hs : v.scalar = false) :
    (l.filter fun p => p.2.scalar).lookup k = Option.none := by
  induction l with
  | nil => simp [List.lookup] at h
  | cons p rest ih =>
    obtain ⟨q, w⟩ := p
    rw [List.map_cons, List.nodup_cons] at hnd
    rw [List.lookup] at h
    cases hq : (k == q) with
    | true =>
      rw [hq] at h
      have hw : w = v := by simpa using h
      subst hw
      have hk : k = q := beq_iff_eq.mp hq
      subst hk
      rw [List.filter_cons]
      simp only [hs, Bool.false_eq_true, if_false]
      exact lookup_filter_scalar_none k rest (lookup_none_of_not_key k rest hnd.1)
    | false =>
      rw [hq] at h
      rw [List.filter_cons]
      cases hw : w.scalar with
      | true => simp only [hw, if_true, List.lookup, hq]; exact ih hnd.2 h
      | false => simp only [hw, Bool.false_eq_true, if_false]; exact ih hnd.2 h

theorem hasAnimeId_filterComplex_false (d : Doc) (hwf : d.WF) (h : d.hasAnimeId = false) :
    (filterComplexMetadata d).hasAnimeId = false := by
  unfold Doc.hasAnimeId Doc.animeId Doc.getMeta at h ⊢
  unfold filterComplexMetadata
  rcases hv : d.metadata.lookup "anime_id" with _ | v
  · rw [lookup_filter_scalar_none _ _ hv]
  · simp only [hv] at h
    cases hs : v.scalar with
    | false =>
      rw [lookup_filter_scalar_drop _ v _ hwf hv hs]
    | true =>
      rw [lookup_filter_scalar_some _ v _ hv hs]
      exact h

theorem animeId_filterComplex_str (d : Doc) (s : String) (h : d.animeId = some (.str s)) :
    (filterComplexMetadata d).animeId = some (.str s) :=
  lookup_filter_scalar_some _ _ _ h rfl

theorem extractIds_error_of_bad (ds : List Doc) (hbad : ∃ d ∈ ds, d.hasAnimeId = false) :
    ∃ e, extractIds ds = .error e := by
  induction ds with
  | nil => simp at hbad
  | cons d rest ih =>
    rw [extractIds]
    rcases hv : d.animeId with _ | v
    · exact ⟨_, rfl⟩
    · cases ht : v.truthy with
      | false => simp only [ht, Bool.false_eq_true, if_false]; exact ⟨_, rfl⟩
      | true =>
        obtain ⟨d0, hd0, hfalse⟩ := hbad
        rcases List.mem_cons.mp hd0 with rfl | hmem
        · exfalso
          unfold Doc.hasAnimeId at hfalse
          simp only [hv, ht] at hfalse
          exact absurd hfalse (by decide)
        · obtain ⟨e, he⟩ := ih ⟨d0, hmem, hfalse⟩
          simp only [ht, if_true, he]
          exact ⟨e, rfl⟩

theorem extractIds_ok_of_good (ds : List Doc) (hgood : ∀ d ∈ ds, d.hasAnimeId = true) :
    ∃ ids, extractIds ds = .ok ids := by
  induction ds with
  | nil => exact ⟨[], rfl⟩
  | cons d rest ih =>
    obtain ⟨ids, hids⟩ := ih fun d0 h0 => hgood d0 (List.mem_cons_of_mem _ h0)
    have hd := hgood d (List.mem_cons_self _ _)
    unfold Doc.hasAnimeId at hd
    rw [extractIds]
    rcases hv : d.animeId with _ | v
    · rw [hv] at hd
      exact absurd hd (by simp)
    · simp only [hv] at hd
      simp only [hd, if_true, hids]
      exact ⟨v.pyStr :: ids, rfl⟩

theorem lengthsOf_zero (size : Nat) : lengthsOf size 0 = [] := by
  cases size <;> simp [lengthsOf]

theorem lengthsOf_pos (size n : Nat) (hs : 0 < size) (hn : 0 < n) :
    lengthsOf size n =
      if n ≤ size then [n] else size :: lengthsOf size (n - size) := by
  obtain ⟨size2, rfl⟩ := Nat.exists_eq_succ_of_ne_zero (Nat.pos_iff_ne_zero.mp hs)
  obtain ⟨n2, rfl⟩ := Nat.exists_eq_succ_of_ne_zero (Nat.pos_iff_ne_zero.mp hn)
  simp only [lengthsOf]

theorem lengthsOf_add (size m : Nat) (hs : 0 < size) :
    lengthsOf size (size + m) = size :: lengthsOf size m := by
  cases m with
  | zero =>
    rw [Nat.add_zero, lengthsOf_pos size size hs hs, if_pos le_rfl, lengthsOf_zero]
  | succ m2 =>
    rw [lengthsOf_pos size (size + (m2 + 1)) hs (by omega), if_neg (by omega)]
    have harith : size + (m2 + 1) - size = m2 + 1 := by omega
    rw [harith]

theorem chunkedGo_join {α : Type} (size : Nat) (l batch : List α)
    (hb : batch.length < size) : (chunkedGo size batch l).flatten = batch ++ l := by
  induction l generalizing batch with
  | nil =>
    rw [chunkedGo]
    cases batch with
    | nil => simp
    | cons b bs => simp [List.isEmpty_cons]
  | cons x xs ih =>
    rw [chunkedGo]
    by_cases hf : size ≤ (batch ++ [x]).length
    · rw [if_pos hf]
      rw [List.flatten_cons, ih [] (by simp only [List.length_nil]; omega)]
      simp
    · rw [if_neg hf]
      have hlen2 : (batch ++ [x]).length = batch.length + 1 := by simp
      rw [ih (batch ++ [x]) (by omega)]
      simp

theorem chunkedGo_lengths {α : Type} (size : Nat) (l batch : List α)
    (hs : 0 < size) (hb : batch.length < size) :
    (chunkedGo size batch l).map List.length = lengthsOf size (batch.length + l.length) := by
  induction l generalizing batch with
  | nil =>
    rw [chunkedGo]
    cases batch with
    | nil => simp [lengthsOf_zero]
    | cons b bs =>
      simp only [List.isEmpty_cons, Bool.false_eq_true, if_false, List.map_cons, List.map_nil,
        List.length_nil, Nat.add_zero]
      rw [lengthsOf_pos size (b :: bs).length hs (by simp), if_pos (by omega)]
  | cons x xs ih =>
    rw [chunkedGo]
    have hlen2 : (batch ++ [x]).length = batch.length + 1 := by simp
    by_cases hf : size ≤ (batch ++ [x]).length
    · rw [if_pos hf]
      have hlen : (batch ++ [x]).length = size := by omega
      rw [List.map_cons, hlen, ih [] (by simp only [List.length_nil]; omega)]
      have harith : batch.length + (x :: xs).length = size + xs.length := by
        simp only [List.length_cons]
        omega
      rw [harith, lengthsOf_add size xs.length hs]
      simp
    · rw [if_neg hf]
      rw [ih (batch ++ [x]) (by omega)]
      congr 1
      simp only [List.length_cons]
      omega

theorem lengthsOf_sum (size n : Nat) (hs : 0 < size) : (lengthsOf size n).sum = n := by
  induction n using Nat.strong_induction_on with
  | _ n ih =>
    cases n with
    | zero => rw [lengthsOf_zero]; rfl
    | succ n2 =>
      rw [lengthsOf_pos size (n2 + 1) hs (by omega)]
      by_cases hle : n2 + 1 ≤ size
      · rw [if_pos hle]; simp
      · rw [if_neg hle, List.sum_cons, ih (n2 + 1 - size) (by omega)]
        omega

theorem lengthsOf_count (size n : Nat) (hs : 0 < size) :
    (lengthsOf size n).length = (n + size - 1) / size := by
  induction n using Nat.strong_induction_on with
  | _ n ih =>
    cases n with
    | zero =>
      rw [lengthsOf_zero]
      have : size - 1 < size := by omega
      simp [Nat.div_eq_of_lt this]
    | succ n2 =>
      rw [lengthsOf_pos size (n2 + 1) hs (by omega)]
      by_cases hle : n2 + 1 ≤ size
      · rw [if_pos hle]
        rw [List.length_singleton]
        exact (Nat.div_eq_of_lt_le (by omega) (by omega)).symm
      · rw [if_neg hle, List.length_cons, ih (n2 + 1 - size) (by omega)]
        have harith : n2 + 1 + size - 1 = (n2 + 1 - size + size - 1) + size := by omega
        rw [harith, Nat.add_div_right _ hs]

theorem lengthsOf_dropLast (size n : Nat) (hs : 0 < size) :
    ∀ c ∈ (lengthsOf size n).dropLast, c = size := by
  induction n using Nat.strong_induction_on with
  | _ n ih =>
    cases n with
    | zero => rw [lengthsOf_zero]; simp
    | succ n2 =>
      rw [lengthsOf_pos size (n2 + 1) hs (by omega)]
      by_cases hle : n2 + 1 ≤ size
      · rw [if_pos hle]; simp
      · rw [if_neg hle]
        intro c hc
        have hne : lengthsOf size (n2 + 1 - size) ≠ [] := by
          rw [lengthsOf_pos size (n2 + 1 - size) hs (by omega)]
          by_cases h2 : n2 + 1 - size ≤ size
          · rw [if_pos h2]; simp
          · rw [if_neg h2]; simp
        rw [List.dropLast_cons_of_ne_nil hne, List.mem_cons] at hc
        rcases hc with rfl | hc
        · rfl
        · exact ih (n2 + 1 - size) (by omega) c hc

theorem lengthsOf_getLast (size n : Nat) (hs : 0 < size) (hn : 0 < n) :
    (lengthsOf size n).getLast? = some (if n % size = 0 then size else n % size) := by
  induction n using Nat.strong_induction_on with
  | _ n ih =>
    cases n with
    | zero => omega
    | succ n2 =>
      rw [lengthsOf_pos size (n2 + 1) hs (by omega)]
      by_cases hle : n2 + 1 ≤ size
      · rw [if_pos hle]
        by_cases heq : n2 + 1 = size
        · simp [heq, Nat.mod_self]
        · have hmod : (n2 + 1) % size = n2 + 1 := Nat.mod_eq_of_lt (by omega)
          have hne0 : ¬(n2 + 1 = 0) := by omega
          simp [hmod, hne0]
      · rw [if_neg hle]
        have hne : lengthsOf size (n2 + 1 - size) ≠ [] := by
          rw [lengthsOf_pos size (n2 + 1 - size) hs (by omega)]
          by_cases h2 : n2 + 1 - size ≤ size
          · rw [if_pos h2]; simp
          · rw [if_neg h2]; simp
        obtain ⟨b, l2, hb2⟩ := List.exists_cons_of_ne_nil hne
        rw [hb2, List.getLast?_cons_cons, ← hb2]
        rw [ih (n2 + 1 - size) (by omega) (by omega)]
        have hmod : (n2 + 1) % size = (n2 + 1 - size) % size := by
          conv_lhs => rw [show n2 + 1 = (n2 + 1 - size) + size by omega]
          rw [Nat.add_mod_right]
        rw [hmod]

theorem upsert_ok_of_good (b : List Doc) (vs : VStore)
    (hgood : ∀ d ∈ b, ∃ s, d.animeId = some (.str s) ∧ s ≠ "") :
    ∃ ids vs2, upsert_documents b vs = (.ok ids, vs2) := by
  unfold upsert_documents
  cases hb : b.isEmpty with
  | true => exact ⟨[], vs, by simp⟩
  | false =>
    have hgoodf : ∀ d ∈ b.map filterComplexMetadata, d.hasAnimeId = true := by
      intro d hd
      obtain ⟨d0, hd0, rfl⟩ := List.mem_map.mp hd
      obtain ⟨s, hs1, hs2⟩ := hgood d0 hd0
      unfold Doc.hasAnimeId
      rw [animeId_filterComplex_str d0 s hs1]
      simpa [MVal.truthy] using hs2
    obtain ⟨ids, hids⟩ := extractIds_ok_of_good _ hgoodf
    simp only [Bool.false_eq_true, if_false, hids]
    exact ⟨ids, _, rfl⟩

theorem ingestGo_ok (bs : List (List Doc)) (vs : VStore) (total : Nat)
    (calls : List (List Doc))
    (h : ∀ b ∈ bs, ∀ d ∈ b, ∃ s, d.animeId = some (.str s) ∧ s ≠ "") :
    ∃ vs2, ingestGo vs total calls bs =
      .ok (total + (bs.map List.length).sum, calls ++ bs, vs2) := by
  induction bs generalizing vs total calls with
  | nil => exact ⟨vs, by simp [ingestGo]⟩
  | cons b rest ih =>
    obtain ⟨ids, vs2, hup⟩ := upsert_ok_of_good b vs (h b (List.mem_cons_self _ _))
    obtain ⟨vs3, hrec⟩ := ih vs2 (total + b.length) (calls ++ [b])
      fun b2 hb2 => h b2 (List.mem_cons_of_mem _ hb2)
    refine ⟨vs3, ?_⟩
    rw [ingestGo]
    simp only [hup, hrec]
    simp only [List.map_cons, List.sum_cons, List.append_assoc, List.singleton_append,
      Nat.add_assoc]

theorem dedupCIGo_not_seen (seen : List String) (l : List String) :
    ∀ x ∈ dedupCIGo seen l, pyLower x ∉ seen := by
  induction l generalizing seen with
  | nil => simp [dedupCIGo]
  | cons p ps ih =>
    intro x hx
    rw [dedupCIGo] at hx
    by_cases hp : pyLower p ∈ seen
    · rw [if_pos hp] at hx
      exact ih seen x hx
    · rw [if_neg hp] at hx
      rcases List.mem_cons.mp hx with rfl | hx2
      · exact hp
      · intro hseen
        exact (ih (pyLower p :: seen) x hx2) (List.mem_cons_of_mem _ hseen)

theorem dedupCIGo_pairwise (seen : List String) (l : List String) :
    (dedupCIGo seen l).Pairwise fun a b => pyLower a ≠ pyLower b := by
  induction l generalizing seen with
  | nil => simp [dedupCIGo]
  | cons p ps ih =>
    rw [dedupCIGo]
    by_cases hp : pyLower p ∈ seen
    · rw [if_pos hp]
      exact ih seen
    · rw [if_neg hp]
      refine List.Pairwise.cons ?_ (ih (pyLower p :: seen))
      intro b hb heq
      exact (dedupCIGo_not_seen (pyLower p :: seen) ps b hb)
        (by rw [← heq]; exact List.mem_cons_self _ _)

theorem dedupCIGo_sublist (seen : List String) (l : List String) :
    (dedupCIGo seen l).Sublist l := by
  induction l generalizing seen with
  | nil => simp [dedupCIGo]
  | cons p ps ih =>
    rw [dedupCIGo]
    by_cases hp : pyLower p ∈ seen
    · rw [if_pos hp]
      exact (ih seen).cons p
    · rw [if_neg hp]
      exact (ih (pyLower p :: seen)).cons₂ p

theorem dedupCIGo_first_seen (seen : List String) (l : List String) (x : String)
    (hx : x ∈ l) (hns : pyLower x ∉ seen) :
    ∃ z, l.find? (fun w => pyLower w == pyLower x) = some z ∧ z ∈ dedupCIGo seen l ∧
      pyLower z = pyLower x := by
  induction l generalizing seen with
  | nil => simp at hx
  | cons p ps ih =>
    by_cases hpe : pyLower p = pyLower x
    · refine ⟨p, ?_, ?_, hpe⟩
      · rw [List.find?_cons_of_pos _ (by simp [hpe])]
      · rw [dedupCIGo, if_neg (by rw [hpe]; exact hns)]
        exact List.mem_cons_self _ _
    · have hx2 : x ∈ ps := by
        rcases List.mem_cons.mp hx with rfl | h2
        · exact absurd rfl hpe
        · exact h2
      rw [List.find?_cons_of_neg _ (by simp [hpe])]
      rw [dedupCIGo]
      by_cases hp : pyLower p ∈ seen
      · rw [if_pos hp]
        exact ih seen hx2 hns
      · rw [if_neg hp]
        obtain ⟨z, h1, h2, h3⟩ := ih (pyLower p :: seen) hx2
          (by
            rw [List.mem_cons]
            push_neg
            exact ⟨fun he => hpe he.symm, hns⟩)
        exact ⟨z, h1, List.mem_cons_of_mem _ h2, h3⟩

theorem isoChars_isEmpty (t : PyDateTime) : t.isoChars.isEmpty = false := by
  simp [PyDateTime.isoChars, pad4]

theorem parseStoredDate_dump (o : Option PyDateTime) (hv : ∀ t, o = some t → t.Valid) :
    parseStoredDate (o.map PyDateTime.isoChars) = .ok o := by
  cases o with
  | none => rfl
  | some t =>
    show parseStoredDate (some t.isoChars) = .ok (some t)
    have hstep : parseStoredDate (some t.isoChars) =
        if t.isoChars.isEmpty = true then Except.error (PyErr.valueError "invalid datetime")
        else match fromIsoChars t.isoChars with
          | some t2 => Except.ok (some t2)
          | Option.none => Except.error (PyErr.valueError "Invalid isoformat string") := rfl
    rw [hstep, if_neg (by rw [isoChars_isEmpty t]; exact Bool.false_ne_true),
      fromIsoChars_isoChars t (hv t rfl)]

theorem parseStored_dump (r : ShowDoc) (now : Nat) (hv : r.Valid)
    (hair : ∀ t, r.air_date = some t → t.Valid) (hend : ∀ t, r.end_date = some t → t.Valid) :
    parseStored (r.dump now) = .ok r := by
  unfold parseStored
  simp only [ShowDoc.dump]
  rw [parseStoredDate_dump r.air_date hair, except_bind_ok]
  rw [parseStoredDate_dump r.end_date hend, except_bind_ok]
  exact hv

theorem parse_ok_fields (p : AniDbPayload) (d : ShowDoc)
    (h : parse_anidb_json (.obj p) = .ok d) :
    d.title_alts = cleanStringList (extractTitleAlts p.titles) ∧
    d.tags = cleanStringList (extractTags p.tags) ∧
    d.rating = (ratingValues (ratingsOf p.ratings)).1 := by
  unfold parse_anidb_json at h
  rcases haid : p.aid with _ | aid
  · simp only [haid] at h
    exact Except.noConfusion h
  · simp only [haid] at h
    by_cases h0 : aid = 0
    · rw [if_pos h0] at h
      exact Except.noConfusion h
    · rw [if_neg h0] at h
      by_cases ht : p.title = ""
      · rw [if_pos ht] at h
        exact Except.noConfusion h
      · rw [if_neg ht] at h
        rw [mkShowDoc_ok_eq h]
        exact ⟨rfl, rfl, rfl⟩

/-- C1: the orchestrator accepts the local vector-store results iff the
result count is at least the count threshold and the best (minimum) distance
— `+∞` on an empty result list, equivalently "some result is within
`max_distance`" — is at most the distance threshold; acceptance or a
disabled fallback returns the local results tagged with their distance
scores, and failure of either conjunct with fallback enabled hands control
to the fallback body. -/
theorem C1_acceptance_test (query : String) (cfg : OrchConfig)
    (results : List (Doc × Rat)) (env : MCPEnv) (hq : pyStrip query ≠ "") :
    (accepts cfg results ↔
      cfg.count_threshold ≤ (results.length : Int) ∧
        ∃ p ∈ results, p.2 ≤ cfg.score_threshold)
    ∧ (results = [] → bestScore results = ⊤)
    ∧ (accepts cfg results ∨ cfg.mcp_enabled = false →
        search_with_mcp_fallback query cfg results env = .ok (tagAll results))
    ∧ (¬ accepts cfg results ∧ cfg.mcp_enabled = true →
        search_with_mcp_fallback query cfg results env =
          match fallback_body results env with
          | .ok docs => .ok docs
          | .error _ => .ok (tagAll results)) := by
  refine ⟨?_, ?_, fun h => orch_returns_local query cfg results env hq h,
    fun h => orch_fallback_run query cfg results env hq h.1 h.2⟩
  · unfold accepts bestScore
    constructor
    · rintro ⟨h1, h2⟩
      refine ⟨h1, ?_⟩
      rw [List.minimum_le_coe_iff] at h2
      obtain ⟨b, hb, hble⟩ := h2
      obtain ⟨p2, hp2, rfl⟩ := List.mem_map.mp hb
      exact ⟨p2, hp2, hble⟩
    · rintro ⟨h1, p2, hp2, hple⟩
      exact ⟨h1, List.minimum_le_coe_iff.mpr ⟨p2.2, List.mem_map_of_mem _ hp2, hple⟩⟩
  · intro h
    rw [h]
    simp [bestScore, List.minimum_nil]

/-- Witness for C1: with fallback disabled the orchestrator returns the
tagged local results for a concrete query. -/
theorem C1_acceptance_test_witness :
    search_with_mcp_fallback "cowboy bebop" cfgW1 [(docW1, 1/2)] envTrivial =
      .ok (tagAll [(docW1, 1/2)]) :=
  (C1_acceptance_test "cowboy bebop" cfgW1 [(docW1, 1/2)] envTrivial (by decide)).2.2.1
    (Or.inr rfl)

/-- C2: once the fallback path is entered (thresholds unmet, fallback
enabled), every exception raised during the external backfill — client
connection, search, cached-record load, detail fetch, parse, cache
persistence, vector-store upsert — is caught at the orchestrator boundary
and the call returns the local results tagged with their distance scores
instead of propagating the failure. -/
theorem C2_fallback_failures_absorbed (query : String) (cfg : OrchConfig)
    (results : List (Doc × Rat)) (env : MCPEnv) (e : PyErr)
    (hq : pyStrip query ≠ "") (hacc : ¬ accepts cfg results) (hen : cfg.mcp_enabled = true) :
    (fallback_body results env = .error e →
      search_with_mcp_fallback query cfg results env = .ok (tagAll results))
    ∧ (env.connect = .error e →
      search_with_mcp_fallback query cfg results env = .ok (tagAll results))
    ∧ (env.connect = .ok () → env.search_anime env.extract_title = .error e →
      search_with_mcp_fallback query cfg results env = .ok (tagAll results))
    ∧ (∀ aid, aid ≠ 0 → env.connect = .ok () →
        env.search_anime env.extract_title = .ok [⟨some aid⟩] →
        env.cache_exists aid = true → env.load_cached aid = .error e →
        search_with_mcp_fallback query cfg results env = .ok (tagAll results))
    ∧ (∀ aid, aid ≠ 0 → env.connect = .ok () →
        env.search_anime env.extract_title = .ok [⟨some aid⟩] →
        env.cache_exists aid = false → env.get_details aid = .error e →
        search_with_mcp_fallback query cfg results env = .ok (tagAll results))
    ∧ (∀ aid raw, aid ≠ 0 → env.connect = .ok () →
        env.search_anime env.extract_title = .ok [⟨some aid⟩] →
        env.cache_exists aid = false → env.get_details aid = .ok (some raw) →
        parse_anidb_json raw = .error e →
        search_with_mcp_fallback query cfg results env = .ok (tagAll results))
    ∧ (∀ aid raw sd, aid ≠ 0 → env.connect = .ok () →
        env.search_anime env.extract_title = .ok [⟨some aid⟩] →
        env.cache_exists aid = false → env.get_details aid = .ok (some raw) →
        parse_anidb_json raw = .ok sd → env.save_doc sd = .error e →
        search_with_mcp_fallback query cfg results env = .ok (tagAll results))
    ∧ (∀ aid raw sd, aid ≠ 0 → env.connect = .ok () →
        env.search_anime env.extract_title = .ok [⟨some aid⟩] →
        env.cache_exists aid = false → env.get_details aid = .ok (some raw) →
        parse_anidb_json raw = .ok sd → env.save_doc sd = .ok () →
        env.upsert_doc sd.to_langchain_doc = .error e →
        search_with_mcp_fallback query cfg results env = .ok (tagAll results)) := by
  have base := orch_fallback_caught query cfg results env e hq hacc hen
  refine ⟨fun h => base h,
    fun h => base (fallback_body_connect_error results env e h),
    fun hc hs => base (fallback_body_search_error results env e hc hs),
    fun aid ha hc hs hce hl => base (fallback_body_hit_error results env e _ hc hs
      (process_hit_load_error env aid e ha hce hl)),
    fun aid ha hc hs hce hd => base (fallback_body_hit_error results env e _ hc hs
      (process_hit_fetch_error env aid e ha hce hd)),
    fun aid raw ha hc hs hce hd hp => base (fallback_body_hit_error results env e _ hc hs
      (process_hit_parse_error env aid raw e ha hce hd hp)),
    fun aid raw sd ha hc hs hce hd hp hsv => base (fallback_body_hit_error results env e _ hc hs
      (process_hit_save_error env aid raw sd e ha hce hd hp hsv)),
    fun aid raw sd ha hc hs hce hd hp hsv hup => base (fallback_body_hit_error results env e _
      hc hs (process_hit_upsert_error env aid raw sd e ha hce hd hp hsv hup))⟩

/-- Witness for C2: a failing connect is absorbed and the tagged local
results come back for a concrete query and result set. -/
theorem C2_fallback_failures_absorbed_witness :
    search_with_mcp_fallback "naruto" cfgW2 [(docW1, 3/2)] envW2 =
      .ok (tagAll [(docW1, 3/2)]) :=
  (C2_fallback_failures_absorbed "naruto" cfgW2 [(docW1, 3/2)] envW2
    (.runtimeError "MCP server connection failed") (by decide) (by decide) rfl).2.1 rfl

/-- C3: in the fallback merge, an externally fetched document and a local
result sharing the same truthy identifier produce exactly one merged entry —
the externally sourced document, with `_distance_score` exactly `0.0` —
placed before every locally sourced entry, and all merged entries carry
pairwise distinct identifiers. -/
theorem C3_merge_dedup_priority (ext loc : Doc) (dist : Rat) (results : List (Doc × Rat))
    (a : MVal) (ha : a.truthy = true) (hext : ext.animeId = some a)
    (hloc : (loc, dist) ∈ results) (hlocid : loc.animeId = some a) :
    ∃ tail, merge_docs [ext] results = tagScore ext 0 :: tail
      ∧ (∀ d ∈ tail, d.animeId ≠ some a)
      ∧ (∀ d ∈ tail, ∃ p ∈ results, d = tagScore p.1 p.2)
      ∧ (merge_docs [ext] results).Pairwise fun d e2 => d.animeId ≠ e2.animeId := by
  have hmcp : mergeMcpGo [] [ext] = ([tagScore ext 0], [a]) := by
    rw [mergeMcpGo]
    simp only [hext]
    rw [if_pos ⟨ha, List.not_mem_nil a⟩]
    rfl
  have hmerge : merge_docs [ext] results = tagScore ext 0 :: mergeLocalGo [a] results := by
    unfold merge_docs
    rw [hmcp]
    rfl
  refine ⟨mergeLocalGo [a] results, hmerge, fun d hd => ?_, fun d hd => ?_, ?_⟩
  · obtain ⟨v, h1, _, h3, _⟩ := mergeLocalGo_mem [a] results d hd
    rw [h1]
    intro hcontra
    apply h3
    rw [Option.some_inj.mp hcontra]
    exact List.mem_singleton_self a
  · obtain ⟨v, _, _, _, p, hp, hpe⟩ := mergeLocalGo_mem [a] results d hd
    exact ⟨p, hp, hpe⟩
  · rw [hmerge]
    refine List.Pairwise.cons ?_ (mergeLocalGo_pairwise [a] results)
    intro d hd
    rw [animeId_tagScore, hext]
    obtain ⟨v, h1, _, h3, _⟩ := mergeLocalGo_mem [a] results d hd
    rw [h1]
    intro hcontra
    apply h3
    rw [← Option.some_inj.mp hcontra]
    exact List.mem_singleton_self a

/-- Witness for C3: a concrete collision merges to exactly the external
document tagged with distance 0. -/
theorem C3_merge_dedup_priority_witness :
    merge_docs [extW3] [(locW3, (9 : Rat)/10)] = [tagScore extW3 0] := by
  obtain ⟨tail, heq, h1, h2, _⟩ := C3_merge_dedup_priority extW3 locW3 ((9 : Rat)/10)
    [(locW3, (9 : Rat)/10)] (.str "1") (by decide) rfl (List.mem_singleton_self _) rfl
  cases tail with
  | nil => exact heq
  | cons d tl =>
    exfalso
    obtain ⟨p, hp, hpe⟩ := h2 d (List.mem_cons_self _ _)
    have hpd : p = (locW3, (9 : Rat)/10) := List.mem_singleton.mp hp
    apply h1 d (List.mem_cons_self _ _)
    rw [hpe, hpd, animeId_tagScore]
    rfl

/-- C4: saving a valid record to the cache store and immediately loading it
by its external id returns the record equal in every field — optional dates
serialized to ISO strings and reparsed, empty and absent optionals included —
and the fetch metadata written at save time does not leak into the result. -/
theorem C4_cache_roundtrip (st : CacheState) (r : ShowDoc) (now : Nat) (hv : r.Valid)
    (hair : ∀ t, r.air_date = some t → t.Valid)
    (hend : ∀ t, r.end_date = some t → t.Valid) :
    load_showdoc (save_showdoc st r now) r.anidb_anime_id = .ok (some r) := by
  unfold load_showdoc save_showdoc
  simp only [lookup_setEntry_self, parseStored_dump r now hv hair hend]
  rfl

/-- Witness for C4: a concrete valid record with both dates set round-trips
through an empty cache directory. -/
theorem C4_cache_roundtrip_witness :
    load_showdoc (save_showdoc ⟨[], []⟩ rW4 77) 123 = .ok (some rW4) :=
  C4_cache_roundtrip ⟨[], []⟩ rW4 77 (by decide)
    (by intro t ht; cases ht; decide) (by intro t ht; cases ht; decide)

/-- C5: loading an external id absent from the index returns None; an
indexed id whose referenced file is missing on disk logs and returns None
rather than raising; an existing file with malformed content raises — the
parse error propagates instead of being converted into a miss. -/
theorem C5_load_miss_semantics (st : CacheState) (aid : Int) :
    (st.index.lookup (toString aid) = Option.none → load_showdoc st aid = .ok Option.none)
    ∧ (∀ entry, st.index.lookup (toString aid) = some entry →
        st.files.lookup entry.file = Option.none → load_showdoc st aid = .ok Option.none)
    ∧ (∀ entry, st.index.lookup (toString aid) = some entry →
        st.files.lookup entry.file = some .malformed →
        ∃ e, load_showdoc st aid = .error e) := by
  refine ⟨fun h => ?_, fun entry h1 h2 => ?_, fun entry h1 h2 => ?_⟩
  · unfold load_showdoc
    simp only [h]
  · unfold load_showdoc
    simp only [h1, h2]
  · unfold load_showdoc
    simp only [h1, h2]
    exact ⟨_, rfl⟩

/-- Witness for C5: in a concrete cache state, an indexed id whose file is
missing loads as None, and an unindexed id loads as None. -/
theorem C5_load_miss_semantics_witness :
    load_showdoc stW5 7 = .ok Option.none ∧ load_showdoc stW5 5 = .ok Option.none :=
  ⟨(C5_load_miss_semantics stW5 7).2.1 ⟨"t", "7", "7.json", 0⟩ rfl rfl,
    (C5_load_miss_semantics stW5 5).1 rfl⟩

theorem mulC6 : mkRat 43 8 * (100 : Rat) = mkRat 1075 2 := by
  norm_num [Rat.mkRat_eq_div]

theorem ratC6 :
    (ratingValues (.obj ⟨some (mkRat 43 8), Option.none, Option.none, Option.none⟩)).1
      = 537 := by
  simp only [ratingValues]
  rw [show ((some (mkRat 43 8)).getD 0) = mkRat 43 8 from rfl]
  rw [if_neg (by decide : ¬ (mkRat 43 8 = (0 : Rat)))]
  rw [mulC6]
  decide

/-- C6 counterexample: for the external rating 5.375 = 43/8 (exactly
representable in binary floating point, so code and model agree) the
normalizer produces 537 = int(5.375 * 100), while round(5.375 * 100) = 538 —
the code truncates toward zero instead of rounding. -/
theorem C6_counterexample :
    ratingOf (parse_anidb_json (.obj payloadC6)) = some 537 ∧
      pyRound (mkRat 43 8 * 100) = 538 ∧ (537 : Int) ≠ 538 := by
  refine ⟨?_, ?_, by decide⟩
  · have hok : parse_anidb_json (.obj payloadC6) = .ok dC6 := by
      simp only [parse_anidb_json, payloadC6]
      rw [if_neg (by decide : ¬ ((1 : Int) = 0)), if_neg (by decide : ¬ ("X" = ""))]
      rw [show ratingsOf (some (.obj ⟨some (mkRat 43 8), Option.none, Option.none,
        Option.none⟩)) = .obj ⟨some (mkRat 43 8), Option.none, Option.none, Option.none⟩
        from rfl]
      rw [ratC6]
      decide
    rw [hok]
    rfl
  · rw [mulC6]
    have hfloor : ⌊(mkRat 1075 2)⌋ = 537 := by decide
    unfold pyRound
    rw [hfloor]
    norm_num [Rat.mkRat_eq_div]

/-- C6 amended: for a payload whose ratings dict carries permanent rating x,
the normalized record's rating is the truncation toward zero int(x * 100) —
not round(x * 100) — while a missing, null or zero rating and a non-dict
ratings value all yield rating 0 rather than an error. -/
theorem C6_amended_truncation (p : AniDbPayload) (d : ShowDoc) :
    (∀ ro x, p.ratings = some (.obj ro) → ro.permanent = some x →
      parse_anidb_json (.obj p) = .ok d →
      d.rating = if x = 0 then 0 else pyInt (x * 100))
    ∧ (∀ ro, p.ratings = some (.obj ro) → ro.permanent = Option.none →
      parse_anidb_json (.obj p) = .ok d → d.rating = 0)
    ∧ (p.ratings = Option.none → parse_anidb_json (.obj p) = .ok d → d.rating = 0)
    ∧ (p.ratings = some .notDict → parse_anidb_json (.obj p) = .ok d → d.rating = 0) := by
  refine ⟨fun ro x h1 h2 hok => ?_, fun ro h1 h2 hok => ?_, fun h1 hok => ?_,
    fun h1 hok => ?_⟩ <;>
    · have hf := (parse_ok_fields _ d hok).2.2
      rw [h1] at hf
      simp only [ratingsOf, ratingValues] at hf
      first
        | (rw [h2] at hf; simpa using hf)
        | simpa using hf

theorem mulW6 : mkRat 17 2 * (100 : Rat) = mkRat 1700 2 := by
  norm_num [Rat.mkRat_eq_div]

theorem ratW6 :
    (ratingValues (.obj ⟨some (mkRat 17 2), Option.none, Option.none, Option.none⟩)).1
      = 850 := by
  simp only [ratingValues]
  rw [show ((some (mkRat 17 2)).getD 0) = mkRat 17 2 from rfl]
  rw [if_neg (by decide : ¬ (mkRat 17 2 = (0 : Rat)))]
  rw [mulW6]
  decide

theorem parseW6 : parse_anidb_json (.obj payloadW6) = .ok dW6 := by
  simp only [parse_anidb_json, payloadW6]
  rw [if_neg (by decide : ¬ ((1 : Int) = 0)), if_neg (by decide : ¬ ("X" = ""))]
  rw [show ratingsOf (some (.obj ⟨some (mkRat 17 2), Option.none, Option.none,
    Option.none⟩)) = .obj ⟨some (mkRat 17 2), Option.none, Option.none, Option.none⟩
    from rfl]
  rw [ratW6]
  decide

/-- Witness for C6 (amended): the rating 8.5 normalizes to int(850.0) = 850. -/
theorem C6_amended_truncation_witness : dW6.rating = 850 := by
  have h := (C6_amended_truncation payloadW6 dW6).1
    ⟨some (mkRat 17 2), Option.none, Option.none, Option.none⟩ (mkRat 17 2) rfl rfl parseW6
  rw [h, if_neg (by decide : ¬ (mkRat 17 2 = (0 : Rat))), mulW6]
  decide

/-- C7 counterexample: the JSON-shape normalizer keeps both "Naruto" and
"NARUTO" — entries differing only in letter case — in the alternate-title
list, so the case-insensitive deduplication claimed for both wire shapes
fails on the external-API JSON shape. -/
theorem C7_counterexample :
    titleAltsOf (parse_anidb_json (.obj payloadC7)) = some ["Naruto", "NARUTO"] ∧
      ciDistinct ["Naruto", "NARUTO"] = false := by
  exact ⟨by decide, by decide⟩

/-- C7 amended: the bulk-import tabular shape (`split_pipe`) deduplicates
case-insensitively — its output has pairwise distinct lowercasings, is a
subsequence of the stripped parts (so first-seen casing and input order are
preserved), and contains the first-seen representative of every part — while
the external-API JSON shape performs no case-insensitive deduplication: it
keeps every non-main nonempty title and every nonempty tag name in input
order, only whitespace-stripped and empty-filtered, case variants
included. -/
theorem C7_amended_dedup (s x : String) (p : AniDbPayload) (d : ShowDoc) :
    ((split_pipe (some s)).Pairwise fun a b => pyLower a ≠ pyLower b)
    ∧ (split_pipe (some s)).Sublist (pipeParts s)
    ∧ (x ∈ pipeParts s →
        ∃ z, (pipeParts s).find? (fun w => pyLower w == pyLower x) = some z
          ∧ z ∈ split_pipe (some s) ∧ pyLower z = pyLower x)
    ∧ (parse_anidb_json (.obj p) = .ok d →
        d.title_alts = cleanStringList (extractTitleAlts p.titles) ∧
        d.tags = cleanStringList (extractTags p.tags)) := by
  have hparse : parse_anidb_json (.obj p) = .ok d →
      d.title_alts = cleanStringList (extractTitleAlts p.titles) ∧
        d.tags = cleanStringList (extractTags p.tags) :=
    fun hok => ⟨(parse_ok_fields p d hok).1, (parse_ok_fields p d hok).2.1⟩
  by_cases hs : s = ""
  · subst hs
    have hparts : pipeParts "" = [] := by decide
    refine ⟨?_, ?_, ?_, hparse⟩
    · simp [split_pipe]
    · simp [split_pipe]
    · rw [hparts]
      intro hx
      exact absurd hx (List.not_mem_nil x)
  · have hsplit : split_pipe (some s) = if s = "" then [] else dedupCIGo [] (pipeParts s) :=
      rfl
    rw [hsplit, if_neg hs]
    exact ⟨dedupCIGo_pairwise [] _, dedupCIGo_sublist [] _,
      fun hx => dedupCIGo_first_seen [] _ x hx (List.not_mem_nil _), hparse⟩

/-- Witness for C7 (amended): on `"Action|action|Comedy"` the first-seen
casing `"Action"` survives pipe-split deduplication, and the JSON-shape
payload with case-variant titles keeps both variants. -/
theorem C7_amended_dedup_witness :
    "Action" ∈ split_pipe (some "Action|action|Comedy") ∧
      dW7.title_alts = ["Naruto", "NARUTO"] := by
  constructor
  · obtain ⟨z, hfind, hmem, _⟩ :=
      (C7_amended_dedup "Action|action|Comedy" "action" payloadC7 dW7).2.2.1 (by decide)
    have hz : z = "Action" := by
      have hfind2 : (pipeParts "Action|action|Comedy").find?
          (fun w => pyLower w == pyLower "action") = some "Action" := by decide
      rw [hfind] at hfind2
      exact Option.some_inj.mp hfind2
    rw [← hz]
    exact hmem
  · exact ((C7_amended_dedup "Action|action|Comedy" "action" payloadC7 dW7).2.2.2
      (by decide)).1.trans (by decide)

/-- C8: ingesting n records with a positive batch size b issues exactly
⌈n/b⌉ upsert calls — every call except possibly the last carries exactly b
documents, the last carries the positive remainder — the concatenation of
the batches equals the input document stream in order, and the reported
total equals n. -/
theorem C8_batch_accounting (records : List ShowDoc) (bsize : Nat) (vs : VStore)
    (hb : 0 < bsize) (hids : ∀ r ∈ records, r.anime_id ≠ "") :
    ∃ calls vs2,
      ingest_showdocs_streaming records bsize vs = .ok (records.length, calls, vs2)
      ∧ calls.length = (records.length + bsize - 1) / bsize
      ∧ (∀ c ∈ calls.dropLast, c.length = bsize)
      ∧ (0 < records.length → ∃ last, calls.getLast? = some last ∧
          last.length =
            (if records.length % bsize = 0 then bsize else records.length % bsize))
      ∧ calls.map List.length = lengthsOf bsize records.length
      ∧ calls.flatten = records.map ShowDoc.to_langchain_doc := by
  have hbne : bsize ≠ 0 := Nat.pos_iff_ne_zero.mp hb
  have hlen : (records.map ShowDoc.to_langchain_doc).length = records.length :=
    List.length_map _ _
  have hchunk : chunked (records.map ShowDoc.to_langchain_doc) bsize =
      .ok (chunkedGo bsize [] (records.map ShowDoc.to_langchain_doc)) := by
    unfold chunked
    rw [if_neg hbne]
  have hjoin : (chunkedGo bsize [] (records.map ShowDoc.to_langchain_doc)).flatten =
      records.map ShowDoc.to_langchain_doc := by
    simpa using chunkedGo_join bsize (records.map ShowDoc.to_langchain_doc) []
      (by simpa using hb)
  have hlens : (chunkedGo bsize [] (records.map ShowDoc.to_langchain_doc)).map List.length =
      lengthsOf bsize records.length := by
    have h2 := chunkedGo_lengths bsize (records.map ShowDoc.to_langchain_doc) [] hb
      (by simpa using hb)
    simpa [hlen] using h2
  have hgood : ∀ b ∈ chunkedGo bsize [] (records.map ShowDoc.to_langchain_doc), ∀ d ∈ b,
      ∃ s, d.animeId = some (.str s) ∧ s ≠ "" := by
    intro b hbmem d hd
    have hdmem : d ∈ records.map ShowDoc.to_langchain_doc := by
      rw [← hjoin]
      exact List.mem_flatten.mpr ⟨b, hbmem, hd⟩
    obtain ⟨r, hr, rfl⟩ := List.mem_map.mp hdmem
    exact ⟨r.anime_id, animeId_to_langchain_doc r, hids r hr⟩
  obtain ⟨vs2, hgo⟩ :=
    ingestGo_ok (chunkedGo bsize [] (records.map ShowDoc.to_langchain_doc)) vs 0 [] hgood
  refine ⟨chunkedGo bsize [] (records.map ShowDoc.to_langchain_doc), vs2, ?_, ?_, ?_, ?_,
    hlens, hjoin⟩
  · unfold ingest_showdocs_streaming
    rw [if_neg hbne, hchunk]
    simp only [hgo]
    rw [hlens, lengthsOf_sum bsize records.length hb]
    simp
  · have h1 : (chunkedGo bsize [] (records.map ShowDoc.to_langchain_doc)).length =
        ((chunkedGo bsize [] (records.map ShowDoc.to_langchain_doc)).map
          List.length).length := (List.length_map _ _).symm
    rw [h1, hlens, lengthsOf_count _ _ hb]
  · intro c hc
    have hmem : c.length ∈ ((chunkedGo bsize []
        (records.map ShowDoc.to_langchain_doc)).map List.length).dropLast := by
      rw [← List.map_dropLast]
      exact List.mem_map_of_mem _ hc
    rw [hlens] at hmem
    exact lengthsOf_dropLast bsize records.length hb _ hmem
  · intro hpos
    have hml : ((chunkedGo bsize [] (records.map ShowDoc.to_langchain_doc)).map
        List.length).getLast? = ((chunkedGo bsize []
          (records.map ShowDoc.to_langchain_doc)).getLast?).map List.length :=
      List.getLast?_map _ _
    rw [hlens, lengthsOf_getLast bsize records.length hb hpos] at hml
    cases hlast : (chunkedGo bsize [] (records.map ShowDoc.to_langchain_doc)).getLast? with
    | none =>
      rw [hlast] at hml
      simp at hml
    | some last =>
      rw [hlast] at hml
      refine ⟨last, rfl, ?_⟩
      simpa using hml.symm

theorem lengthsOf_7_23 : lengthsOf 7 23 = [7, 7, 7, 2] := by
  rw [lengthsOf_pos 7 23 (by norm_num) (by norm_num), if_neg (by norm_num)]
  norm_num
  rw [lengthsOf_pos 7 16 (by norm_num) (by norm_num), if_neg (by norm_num)]
  norm_num
  rw [lengthsOf_pos 7 9 (by norm_num) (by norm_num), if_neg (by norm_num)]
  norm_num
  rw [lengthsOf_pos 7 2 (by norm_num) (by norm_num), if_pos (by norm_num)]

/-- Witness for C8: 23 records at batch size 7 report a total of 23 and
issue exactly four upsert calls of sizes 7, 7, 7, 2. -/
theorem C8_batch_accounting_witness :
    ingestTotal (ingest_showdocs_streaming recsW8 7 ⟨[]⟩) = some 23 ∧
      ingestCallSizes (ingest_showdocs_streaming recsW8 7 ⟨[]⟩) = some [7, 7, 7, 2] := by
  obtain ⟨calls, vs2, hok, _, _, _, hmap, _⟩ :=
    C8_batch_accounting recsW8 7 ⟨[]⟩ (by norm_num) (by decide)
  rw [hok]
  refine ⟨by rfl, ?_⟩
  show some (calls.map List.length) = some [7, 7, 7, 2]
  rw [hmap]
  rw [show recsW8.length = 23 from rfl, lengthsOf_7_23]

/-- C9: every document in the fallback-merged return carries a truthy
anime_id metadata value; a local result lacking one is silently excluded
from the merged output, while the threshold-accepted and fallback-disabled
paths return every local result tagged with its score, in order, regardless
of metadata. -/
theorem C9_merge_requires_anime_id (mcp_docs : List Doc) (results : List (Doc × Rat))
    (query : String) (cfg : OrchConfig) (env : MCPEnv) :
    (∀ d ∈ merge_docs mcp_docs results, d.hasAnimeId = true)
    ∧ (∀ p ∈ results, p.1.hasAnimeId = false →
        ∀ s, tagScore p.1 s ∉ merge_docs mcp_docs results)
    ∧ (pyStrip query ≠ "" → accepts cfg results ∨ cfg.mcp_enabled = false →
        search_with_mcp_fallback query cfg results env =
          .ok (results.map fun p => tagScore p.1 p.2)) := by
  have hall : ∀ d ∈ merge_docs mcp_docs results, d.hasAnimeId = true := by
    intro d hd
    have hd2 : d ∈ (mergeMcpGo [] mcp_docs).1 ++
        mergeLocalGo (mergeMcpGo [] mcp_docs).2 results := hd
    rcases List.mem_append.mp hd2 with hmem | hmem
    · obtain ⟨v, h1, h2, _, _⟩ := mergeMcpGo_mem [] mcp_docs d hmem
      unfold Doc.hasAnimeId
      rw [h1]
      exact h2
    · obtain ⟨v, h1, h2, _, _⟩ := mergeLocalGo_mem _ results d hmem
      unfold Doc.hasAnimeId
      rw [h1]
      exact h2
  refine ⟨hall, fun p hp hfalse s hmem => ?_,
    fun hq h => orch_returns_local query cfg results env hq h⟩
  have htrue := hall _ hmem
  rw [hasAnimeId_tagScore, hfalse] at htrue
  exact Bool.noConfusion htrue

/-- Witness for C9: a concrete local result without anime_id metadata is
absent from the merged output. -/
theorem C9_merge_requires_anime_id_witness :
    tagScore badW9 (mkRat 1 2) ∉
      merge_docs [extW9] [(goodW9, mkRat 1 4), (badW9, mkRat 1 2)] :=
  (C9_merge_requires_anime_id [extW9] [(goodW9, mkRat 1 4), (badW9, mkRat 1 2)]
    "q" cfgW1 envTrivial).2.1 (badW9, mkRat 1 2) (by decide) rfl (mkRat 1 2)

/-- C10: the upsert path validates every document of the batch for a truthy
anime_id metadata value before issuing any mutation: if any document lacks
one, the call raises a validation error and the vector store is returned
exactly as it was — no delete and no insert was performed for any document
of the batch. -/
theorem C10_upsert_validates_batch (docs : List Doc) (vs : VStore)
    (hwf : ∀ d ∈ docs, d.WF) (hbad : ∃ d ∈ docs, d.hasAnimeId = false) :
    (∃ e, (upsert_documents docs vs).1 = .error e) ∧
      (upsert_documents docs vs).2 = vs := by
  obtain ⟨d0, hd0, hfalse⟩ := hbad
  have hne : docs.isEmpty = false := by
    cases docs with
    | nil => simp at hd0
    | cons a l => rfl
  have hbadf : ∃ d ∈ docs.map filterComplexMetadata, d.hasAnimeId = false :=
    ⟨filterComplexMetadata d0, List.mem_map_of_mem _ hd0,
      hasAnimeId_filterComplex_false d0 (hwf d0 hd0) hfalse⟩
  obtain ⟨e, he⟩ := extractIds_error_of_bad _ hbadf
  unfold upsert_documents
  rw [hne]
  simp only [Bool.false_eq_true, if_false, he]
  exact ⟨⟨e, rfl⟩, trivial⟩

/-- Witness for C10: a concrete one-document batch without anime_id leaves
a concrete store untouched. -/
theorem C10_upsert_validates_batch_witness :
    (upsert_documents [badW10] vsW10).2 = vsW10 :=
  (C10_upsert_validates_batch [badW10] vsW10
    (by
      intro d hd
      cases List.mem_singleton.mp hd
      decide)
    ⟨badW10, List.mem_singleton_self _, rfl⟩).2

end Shoko

